import Mathlib

/-!
Verification development for an OSM-based A* pathfinding web application.

The program consists of a road-network builder (`RoadNetwork` in the
network module), which converts raw Overpass/OSM feature data into a graph
of `RoadNode`s and `RoadEdge`s with haversine distances and a spatial
index, and a search engine (`RoadPathfinder` in `pathfinder.js`) which
runs A* over that graph with a list-based, stably sorted `PriorityQueue`.

The JavaScript sources are shallowly embedded here:
* JS numbers are modelled as real numbers (`ℝ`); the `Infinity` sentinel
  used for the per-node `g`/`f` scores is modelled as `⊤` in `WithTop ℝ`.
* JS `Map`s are modelled as insertion-ordered association lists, matching
  the iteration-order semantics of `Map` that the code relies on.
* The mutating methods are modelled as state-passing functions; `throw`
  is modelled with `Except`.
* The single external library (KDBush, loaded from a CDN and not part of
  the repository) is modelled from the spec, see `kdWithin` below.
-/

namespace AStarApp

/-- JS `Math.atan2 y x`, piecewise in terms of `Real.arctan`. -/
noncomputable def atan2 (y x : ℝ) : ℝ :=
  if 0 < x then Real.arctan (y / x)
  else if x < 0 then
    (if 0 ≤ y then Real.arctan (y / x) + Real.pi else Real.arctan (y / x) - Real.pi)
  else
    (if 0 < y then Real.pi / 2 else if y < 0 then -(Real.pi / 2) else 0)

/-- `RoadNetwork.calculateDistance`: haversine great-circle distance in
meters, Earth radius 6371e3, exactly following the source expression
(`c = 2 * atan2 (sqrt a) (sqrt (1 - a))`). -/
noncomputable def calculateDistance (lat1 lon1 lat2 lon2 : ℝ) : ℝ :=
  let R : ℝ := 6371e3
  let phi1 := lat1 * Real.pi / 180
  let phi2 := lat2 * Real.pi / 180
  let dphi := (lat2 - lat1) * Real.pi / 180
  let dlam := (lon2 - lon1) * Real.pi / 180
  let a := Real.sin (dphi / 2) * Real.sin (dphi / 2) +
      Real.cos phi1 * Real.cos phi2 * Real.sin (dlam / 2) * Real.sin (dlam / 2)
  let c := 2 * atan2 (Real.sqrt a) (Real.sqrt (1 - a))
  R * c

/-- Insertion-ordered association list lookup (JS `Map.get`). -/
def alGet {κ β : Type} [DecidableEq κ] (m : List (κ × β)) (k : κ) : Option β :=
  match m with
  | [] => none
  | kv :: rest => if kv.1 = k then some kv.2 else alGet rest k

/-- Insertion-ordered association list update (JS `Map.set`): replaces the
value in place if the key is present, otherwise appends at the end,
matching the insertion-order iteration semantics of JS `Map`. -/
def alSet {κ β : Type} [DecidableEq κ] (m : List (κ × β)) (k : κ) (v : β) : List (κ × β) :=
  match m with
  | [] => [(k, v)]
  | kv :: rest => if kv.1 = k then (k, v) :: rest else kv :: alSet rest k v

/-- `RoadEdge` from the network module: a directed edge with precomputed
haversine distance, road type tag, and rendering geometry. -/
structure RoadEdge where
  id : String
  source : Nat
  target : Nat
  distance : ℝ
  roadType : String
  wayId : Option Nat
  name : String
  path : List (ℝ × ℝ)

/-- `RoadEdge.getSpeed`: speed limit in mph by road type, defaulting to 25. -/
noncomputable def RoadEdge.getSpeed (e : RoadEdge) : ℝ :=
  if e.roadType = ("motorway" : String) then 65
  else if e.roadType = ("trunk" : String) then 55
  else if e.roadType = ("primary" : String) then 45
  else if e.roadType = ("secondary" : String) then 35
  else if e.roadType = ("tertiary" : String) then 30
  else if e.roadType = ("residential" : String) then 25
  else if e.roadType = ("service" : String) then 15
  else if e.roadType = ("default" : String) then 25
  else 25

/-- `RoadEdge.getTravelTime`: estimated travel time in minutes. -/
noncomputable def RoadEdge.getTravelTime (e : RoadEdge) : ℝ :=
  let speedMph := e.getSpeed
  let distanceMiles := e.distance * 0.000621371
  (distanceMiles / speedMph) * 60

/-- `RoadNode`: graph node with per-node A* search scratch state.
JS `Infinity` for `g`/`f` is modelled as `⊤ : WithTop ℝ`; the JS object
parent pointer is modelled by the parent's node id. -/
structure RoadNode where
  id : Nat
  lat : ℝ
  lng : ℝ
  connections : List (Nat × RoadEdge)
  g : WithTop ℝ
  h : ℝ
  f : WithTop ℝ
  parent : Option Nat

/-- `RoadNode` constructor defaults: `g = Infinity, h = 0, f = Infinity,
parent = null`, empty connections. -/
def mkRoadNode (id : Nat) (lat lng : ℝ) : RoadNode :=
  { id := id, lat := lat, lng := lng, connections := [],
    g := ⊤, h := 0, f := ⊤, parent := none }

/-- `RoadNode.reset`: restore the search scratch fields to their defaults. -/
def RoadNode.reset (n : RoadNode) : RoadNode :=
  { n with g := ⊤, h := 0, f := ⊤, parent := none }

/-- Point record pushed into the spatial index (`{x: lng, y: lat, id}`). -/
structure SpatialPoint where
  x : ℝ
  y : ℝ
  id : Nat

/-- Modelled from the spec: the spatial index is the external KDBush
library (loaded from a CDN, not part of this repository's sources).  Per
the spec the lookup gathers "candidate nodes within an approximate
bounding radius (radius converted from meters to a coordinate-degree
delta)": `kdWithin pts qx qy r` returns the indices of all indexed points
within Euclidean distance `r` of `(qx, qy)` in raw coordinate space. -/
noncomputable def kdWithin (pts : List SpatialPoint) (qx qy r : ℝ) : List Nat :=
  (List.range pts.length).filter fun i =>
    match pts.get? i with
    | some p => decide ((p.x - qx) ^ 2 + (p.y - qy) ^ 2 ≤ r ^ 2)
    | none => false

/-- Bounding box record. -/
structure Bounds where
  south : ℝ
  west : ℝ
  north : ℝ
  east : ℝ

/-- `RoadNetwork` state: graph, spatial index and status flags. -/
structure RoadNetwork where
  nodes : List (Nat × RoadNode)
  edges : List (String × RoadEdge)
  bounds : Option Bounds
  ready : Bool
  loading : Bool
  spatialIndex : Option (List SpatialPoint)
  nodeLocations : List RoadNode
  searchRadius : ℝ
  loadProgress : ℝ

/-- `RoadNetwork.buildSpatialIndex`: index every node's coordinates, and
record the nodes in `nodeLocations` in the same order. -/
def RoadNetwork.buildSpatialIndex (net : RoadNetwork) : RoadNetwork :=
  { net with
    nodeLocations := net.nodes.map (fun kv => kv.2),
    spatialIndex := some (net.nodes.map (fun kv =>
      { x := kv.2.lng, y := kv.2.lat, id := kv.2.id })) }

/-- `RoadNetwork.resetNodes`: reset the search scratch state of every node. -/
def RoadNetwork.resetNodes (net : RoadNetwork) : RoadNetwork :=
  { net with nodes := net.nodes.map (fun kv => (kv.1, kv.2.reset)) }

/-- `RoadNetwork.getNodeNeighbors`: the entries of the node's connection
map, in insertion order, or `[]` for an unknown node. -/
def RoadNetwork.getNodeNeighbors (net : RoadNetwork) (nodeId : Nat) : List (Nat × RoadEdge) :=
  match alGet net.nodes nodeId with
  | some node => node.connections
  | none => []

/-- The fold inside `findNearestNode`: scan the candidate indices keeping
the node of strictly smallest exact geo-distance.  The JS initialisation
`minDistance = Infinity` is modelled by the `none` accumulator: the first
resolvable candidate always replaces it (its finite distance beats
`Infinity`). -/
noncomputable def nearestScan (net : RoadNetwork) (lat lng : ℝ)
    (acc : Option (RoadNode × ℝ)) (i : Nat) : Option (RoadNode × ℝ) :=
  match net.nodeLocations.get? i with
  | none => acc
  | some loc =>
    match alGet net.nodes loc.id with
    | none => acc
    | some node =>
      let d := calculateDistance lat lng node.lat node.lng
      match acc with
      | none => some (node, d)
      | some best => if d < best.2 then some (node, d) else some best

noncomputable def nearestFold (net : RoadNetwork) (lat lng : ℝ) (idxs : List Nat) :
    Option (RoadNode × ℝ) :=
  idxs.foldl (nearestScan net lat lng) none

/-- `RoadNetwork.findNearestNode`: refuse when not ready / loading / no
index; gather candidates within `searchRadius / 111000` coordinate
degrees of the query; return the candidate of minimum exact geo-distance
(no further check of the distance against `searchRadius` in meters). -/
noncomputable def RoadNetwork.findNearestNode (net : RoadNetwork) (lat lng : ℝ) :
    Option RoadNode :=
  if !net.ready then none
  else if net.loading then none
  else
    match net.spatialIndex with
    | none => none
    | some pts =>
      let radiusInDegrees := net.searchRadius / 111000
      let nearestIndices := kdWithin pts lng lat radiusInDegrees
      if nearestIndices.length = 0 then none
      else
        match nearestFold net lat lng nearestIndices with
        | some best => some best.1
        | none => none

/-! ## OSM data model and the graph builder (`processOsmData`) -/

/-- Tags of an OSM way element.  `none` models an absent (or non-string)
field; a present empty string is distinguished because JS truthiness of
`''` matters for the one-way test. -/
structure OsmTags where
  highway : Option String
  name : Option String
  oneway : Option String

/-- One element of the Overpass response.  `lat`/`lon` are `none` when
missing or non-numeric; `nodes` is `none` when missing or not an array. -/
structure OsmElement where
  type : String
  id : Nat
  lat : Option ℝ
  lon : Option ℝ
  tags : Option OsmTags
  nodes : Option (List Nat)

/-- The parsed Overpass response; `elements` is `none` when the field is
missing or is not an array (the `DataFormatError` case). -/
structure OsmData where
  elements : Option (List OsmElement)

/-- The cleanup performed by the `catch` block of `processOsmData`:
nodes, edges, spatial index, node locations and bounds are cleared.  The
`ready` flag is left as-is (it was already set to `false` at the start of
`processOsmData` and is only set to `true` after all validations pass). -/
def clearOnError (net : RoadNetwork) : RoadNetwork :=
  { net with
    nodes := []
    edges := []
    spatialIndex := none
    nodeLocations := []
    bounds := none }

/-- Edge id string `way.id + "-" + i` (plus `"-rev"` for reverse edges). -/
def edgeIdStr (wayId i : Nat) (rev : Bool) : String :=
  toString wayId ++ ("-" : String) ++ toString i ++ (if rev then ("-rev" : String) else ("" : String))

/-- The two-way test `!way.tags.oneway || way.tags.oneway === 'no'`
(JS falsiness: an absent tag or the empty string both count as two-way). -/
def isTwoWay (way : OsmElement) : Bool :=
  match way.tags with
  | none => true
  | some t =>
    match t.oneway with
    | none => true
    | some s => s = ("" : String) ∨ s = ("no" : String)

/-- Insert the node with the given id into the network if absent
(`if (!this.nodes.has(id)) this.nodes.set(id, new RoadNode(...))`). -/
def ensureNode (net : RoadNetwork) (id : Nat) (lat lng : ℝ) : RoadNetwork :=
  match alGet net.nodes id with
  | some _ => net
  | none => { net with nodes := alSet net.nodes id (mkRoadNode id lat lng) }

/-- `node1.connections.set(otherId, edge)` on the node with id `a`. -/
def connectNodes (net : RoadNetwork) (a b : Nat) (edge : RoadEdge) : RoadNetwork :=
  match alGet net.nodes a with
  | some node =>
    { net with
      nodes := alSet net.nodes a { node with connections := alSet node.connections b edge } }
  | none => net

/-- One iteration of the consecutive-point-pair loop of a way: skip the
pair when either point is missing from the node-coordinate map, otherwise
create/reuse the two nodes, compute the haversine distance, add the
forward edge, and add the reverse edge unless the way is one-way. -/
noncomputable def processWayPair (nodesMap : List (Nat × (ℝ × ℝ))) (way : OsmElement)
    (roadType name : String) (wayNodes : List Nat) (net : RoadNetwork) (i : Nat) :
    RoadNetwork :=
  match wayNodes.get? i, wayNodes.get? (i + 1) with
  | some id1, some id2 =>
    match alGet nodesMap id1, alGet nodesMap id2 with
    | some n1, some n2 =>
      let net := ensureNode net id1 n1.1 n1.2
      let net := ensureNode net id2 n2.1 n2.2
      let distance := calculateDistance n1.1 n1.2 n2.1 n2.2
      let edge : RoadEdge :=
        { id := edgeIdStr way.id i false, source := id1, target := id2,
          distance := distance, roadType := roadType, wayId := some way.id,
          name := name, path := [(n1.1, n1.2), (n2.1, n2.2)] }
      let net := { net with edges := alSet net.edges edge.id edge }
      let net := connectNodes net id1 id2 edge
      if isTwoWay way then
        let redge : RoadEdge :=
          { id := edgeIdStr way.id i true, source := id2, target := id1,
            distance := distance, roadType := roadType, wayId := some way.id,
            name := name, path := [(n2.1, n2.2), (n1.1, n1.2)] }
        let net := { net with edges := alSet net.edges redge.id redge }
        connectNodes net id2 id1 redge
      else net
    | _, _ => net
  | _, _ => net

/-- Process one way: drop it (with a warning in the source) when its
`nodes` field is missing or shorter than two entries, otherwise process
every consecutive point pair. -/
noncomputable def processWay (nodesMap : List (Nat × (ℝ × ℝ))) (net : RoadNetwork)
    (way : OsmElement) : RoadNetwork :=
  let roadType := match way.tags with
    | some t => t.highway.getD ("" : String)
    | none => ("" : String)
  let name := match way.tags with
    | some t => t.name.getD ("" : String)
    | none => ("" : String)
  match way.nodes with
  | none => net
  | some wayNodes =>
    if wayNodes.length < 2 then net
    else (List.range (wayNodes.length - 1)).foldl
      (fun acc i => processWayPair nodesMap way roadType name wayNodes acc i) net

/-- `RoadNetwork.processOsmData`, as state transformer plus `Except`
outcome.  The graph state is cleared unconditionally at the start; the
four `throw` sites (malformed data, no nodes, no roads, empty final
network) are the `Except.error` branches, each passing through the
`catch` cleanup; `ready := true` is set only after all validations. -/
noncomputable def RoadNetwork.processOsmData (net : RoadNetwork) (data : OsmData) :
    RoadNetwork × Except String Unit :=
  let net1 : RoadNetwork := { net with
    ready := false
    nodes := []
    edges := []
    spatialIndex := none
    nodeLocations := [] }
  match data.elements with
  | none => (clearOnError net1, Except.error ("Invalid OSM data format" : String))
  | some elements =>
    let osmNodes := elements.filter (fun e => e.type == ("node" : String))
    if osmNodes.length = 0 then
      (clearOnError net1, Except.error ("No nodes found in data" : String))
    else
      let nodesMap := osmNodes.foldl (fun m n =>
        match n.lat, n.lon with
        | some la, some lo => alSet m n.id (la, lo)
        | _, _ => m) ([] : List (Nat × (ℝ × ℝ)))
      let net2 : RoadNetwork := { net1 with loadProgress := 60 }
      let ways := elements.filter (fun e =>
        e.type == ("way" : String) &&
        (match e.tags with
         | some t => t.highway.isSome
         | none => false))
      if ways.length = 0 then
        (clearOnError net2, Except.error ("No roads found in data" : String))
      else
        let net3 := ways.foldl (fun acc w => processWay nodesMap acc w) net2
        let net4 : RoadNetwork := { net3 with loadProgress := 80 }
        let net5 := net4.buildSpatialIndex
        if net5.nodes.length = 0 ∨ net5.edges.length = 0 then
          (clearOnError net5,
            Except.error ("Failed to build road network - no nodes or edges created" : String))
        else
          ({ net5 with loadProgress := 100, ready := true }, Except.ok ())

/-! ## The priority queue (`pathfinder.js`, `class PriorityQueue`)

The queue stores `{element, priority}` records in an array; `enqueue`
pushes at the end and re-sorts with `values.sort((a,b) => a.priority -
b.priority)`, which per the ECMAScript specification is a *stable*
ascending sort by priority; `dequeue` is `shift()` (remove the front).
`sortStable` below is a stable insertion sort: it produces the unique
stably-sorted permutation that the JS engine's stable sort produces. -/

/-- One `{element, priority}` record of the queue. -/
structure PQEntry (ε π : Type) where
  element : ε
  priority : π

/-- Insert `x` in front of the first entry of strictly larger priority,
keeping it behind every earlier entry of smaller-or-equal priority. -/
def insertStable {ε π : Type} [LinearOrder π] (x : PQEntry ε π) :
    List (PQEntry ε π) → List (PQEntry ε π)
  | [] => [x]
  | y :: ys => if y.priority < x.priority then y :: insertStable x ys else x :: y :: ys

/-- Stable ascending insertion sort by priority, modelling the stable
`Array.prototype.sort` of the source. -/
def sortStable {ε π : Type} [LinearOrder π] : List (PQEntry ε π) → List (PQEntry ε π)
  | [] => []
  | x :: xs => insertStable x (sortStable xs)

/-- `class PriorityQueue`: the `values` array. -/
structure PriorityQueue (ε π : Type) where
  values : List (PQEntry ε π)

/-- `enqueue`: push `{element, priority}` then sort (stably). -/
def PriorityQueue.enqueue {ε π : Type} [LinearOrder π] (q : PriorityQueue ε π)
    (e : ε) (p : π) : PriorityQueue ε π :=
  ⟨sortStable (q.values ++ [⟨e, p⟩])⟩

/-- The record returned by `dequeue` (`values.shift()`). -/
def PriorityQueue.dequeueEntry {ε π : Type} (q : PriorityQueue ε π) : Option (PQEntry ε π) :=
  q.values.head?

/-- The queue remaining after `dequeue` (`values.shift()` removes the front). -/
def PriorityQueue.dequeueRest {ε π : Type} (q : PriorityQueue ε π) : PriorityQueue ε π :=
  ⟨q.values.tail⟩

/-- `contains`: `values.some(v => v.element === element)`. -/
def PriorityQueue.contains {ε π : Type} [DecidableEq ε] (q : PriorityQueue ε π) (e : ε) :
    Bool :=
  q.values.any (fun v => v.element = e)

/-- `isEmpty`: `values.length === 0`. -/
def PriorityQueue.isEmpty {ε π : Type} (q : PriorityQueue ε π) : Bool :=
  q.values.isEmpty

/-! ## The search engine (`pathfinder.js`, `RoadPathfinder.findPath`)

The `while` loop is modelled as a fuel-indexed step function.  The fuel
`net.nodes.length + 1` always suffices: each node id is enqueued at most
once per run (`enqueue` is guarded by `contains`, and a dequeued node is
immediately closed and `closedSet`-skipped afterwards), and every
iteration consumes one queue entry.  The pause branch and the awaited
visualization callback (timing-dependent, `visualCallback` = null here)
do not affect the search result and are not modelled. -/

/-- `heuristic(node, goal)`: straight-line haversine distance. -/
noncomputable def heuristic (node goal : RoadNode) : ℝ :=
  calculateDistance node.lat node.lng goal.lat goal.lng

/-- One traversed segment of the reconstructed path. -/
structure Segment where
  edge : RoadEdge
  points : List (ℝ × ℝ)
  distance : ℝ
  time : ℝ

/-- The object returned by `reconstructPath`. -/
structure PathResult where
  nodes : List RoadNode
  segments : List Segment
  totalDistance : ℝ
  totalTime : ℝ

/-- The object returned by a successful `findPath`. -/
structure FindPathOutput where
  path : PathResult
  nodesExplored : Nat
  endNode : RoadNode

/-- The backward walk of `reconstructPath`
(`while (current && current.parent) ...`), fuel-indexed.  Parent pointers
are node ids; in every state produced by a search they resolve in the
node map and form a cycle-free chain, so the fuel and lookup fallbacks
are never taken on reachable inputs. -/
noncomputable def reconstructGo (net : RoadNetwork) :
    Nat → Option RoadNode → List RoadNode → List Segment → ℝ → ℝ → PathResult
  | 0, current, path, segs, td, tt =>
    (match current with
     | some c => ⟨c :: path, segs, td, tt⟩
     | none => ⟨path, segs, td, tt⟩)
  | fuel + 1, current, path, segs, td, tt =>
    match current with
    | none => ⟨path, segs, td, tt⟩
    | some c =>
      match c.parent with
      | none => ⟨c :: path, segs, td, tt⟩
      | some pid =>
        match alGet net.nodes pid with
        | none => ⟨c :: path, segs, td, tt⟩
        | some pnode =>
          match alGet pnode.connections c.id with
          | some edge =>
            reconstructGo net fuel (some pnode) (c :: path)
              (({ edge := edge, points := edge.path, distance := edge.distance,
                  time := edge.getTravelTime } : Segment) :: segs)
              (td + edge.distance) (tt + edge.getTravelTime)
          | none => reconstructGo net fuel (some pnode) (c :: path) segs td tt

/-- `reconstructPath(endNode)`: walk the parent chain, prepending nodes
and segments, summing distance and travel time. -/
noncomputable def reconstructPath (net : RoadNetwork) (endNode : RoadNode) : PathResult :=
  reconstructGo net (net.nodes.length + 1) (some endNode) [] [] 0 0

/-- The data of the current run fixed before the loop: the goal node's id
and coordinates (`endNode` is compared by object identity, which for
nodes of the shared map coincides with id equality; `heuristic` reads its
coordinates). -/
structure SearchCtx where
  endId : Nat
  endLat : ℝ
  endLng : ℝ

/-- The mutable state of one search run: the network (per-node `g h f
parent` scratch), the OPEN priority queue, the CLOSED set (insertion
ordered) and the explored counter. -/
structure SearchState where
  net : RoadNetwork
  openQ : PriorityQueue Nat (WithTop ℝ)
  closed : List Nat
  explored : Nat

/-- Result of one iteration of the `while` loop. -/
inductive StepRes where
  | emptyQueue (s : SearchState)
  | found (out : FindPathOutput) (s : SearchState)
  | next (s : SearchState)

/-- The body of the neighbor loop: skip CLOSED neighbors; on strict
`g`-improvement update `parent/g/h/f` on the node, and enqueue keyed by
the new `f` only when the neighbor is not already OPEN (if it is already
in the queue, the queue — including the stored priority — is untouched). -/
noncomputable def relaxStep (ctx : SearchCtx) (closed : List Nat) (currentId : Nat)
    (currentG : WithTop ℝ) (acc : RoadNetwork × PriorityQueue Nat (WithTop ℝ))
    (nb : Nat × RoadEdge) : RoadNetwork × PriorityQueue Nat (WithTop ℝ) :=
  if nb.1 ∈ closed then acc
  else
    match alGet acc.1.nodes nb.1 with
    | none => acc
    | some neighbor =>
      let tentativeG : WithTop ℝ := currentG + (nb.2.distance : WithTop ℝ)
      if tentativeG < neighbor.g then
        let hval := calculateDistance neighbor.lat neighbor.lng ctx.endLat ctx.endLng
        let fval : WithTop ℝ := tentativeG + (hval : WithTop ℝ)
        let neighbor2 : RoadNode :=
          { neighbor with parent := some currentId, g := tentativeG, h := hval, f := fval }
        let net2 : RoadNetwork := { acc.1 with nodes := alSet acc.1.nodes nb.1 neighbor2 }
        if acc.2.contains nb.1 then (net2, acc.2)
        else (net2, acc.2.enqueue nb.1 fval)
      else acc

/-- One iteration of the `while (!openSet.isEmpty())` loop: dequeue the
minimum-`f` entry, count it as explored, return on reaching the goal,
otherwise close it and relax its outgoing edges. -/
noncomputable def searchStep (ctx : SearchCtx) (s : SearchState) : StepRes :=
  match s.openQ.values with
  | [] => StepRes.emptyQueue s
  | entry :: rest =>
    let currentId := entry.element
    match alGet s.net.nodes currentId with
    | none => StepRes.next { s with openQ := ⟨rest⟩, explored := s.explored + 1 }
    | some current =>
      let explored := s.explored + 1
      if currentId = ctx.endId then
        StepRes.found
          { path := reconstructPath s.net current, nodesExplored := explored,
            endNode := current }
          { s with openQ := ⟨rest⟩, explored := explored }
      else
        let closed2 := if currentId ∈ s.closed then s.closed else s.closed ++ [currentId]
        let neighbors := s.net.getNodeNeighbors currentId
        let res := neighbors.foldl (relaxStep ctx closed2 currentId current.g) (s.net, ⟨rest⟩)
        StepRes.next { net := res.1, openQ := res.2, closed := closed2, explored := explored }

/-- The fuel-indexed `while` loop; returns the result (`null` = `none`)
together with the final network (carrying the mutated per-node state). -/
noncomputable def searchLoop (ctx : SearchCtx) :
    Nat → SearchState → Option FindPathOutput × RoadNetwork
  | 0, s => (none, s.net)
  | fuel + 1, s =>
    match searchStep ctx s with
    | StepRes.emptyQueue s2 => (none, s2.net)
    | StepRes.found out s2 => (some out, s2.net)
    | StepRes.next s2 => searchLoop ctx fuel s2

/-- The prologue of `findPath`: reset all node scratch state, resolve the
start and end coordinates to nearest graph nodes (failing with `null`
when either resolves to none), initialise the start node
(`g := 0, h := heuristic(start, end), f := h`), and enqueue it. -/
noncomputable def findPathInit (net0 : RoadNetwork) (startLat startLng endLat endLng : ℝ) :
    Option (SearchCtx × SearchState) :=
  let net := net0.resetNodes
  match net.findNearestNode startLat startLng, net.findNearestNode endLat endLng with
  | some startNode, some endNode =>
    let h0 := heuristic startNode endNode
    let startNode2 : RoadNode := { startNode with
      g := ((0 : ℝ) : WithTop ℝ)
      h := h0
      f := (h0 : WithTop ℝ) }
    let net2 : RoadNetwork := { net with nodes := alSet net.nodes startNode.id startNode2 }
    let q0 : PriorityQueue Nat (WithTop ℝ) := PriorityQueue.enqueue ⟨[]⟩ startNode2.id startNode2.f
    some (⟨endNode.id, endNode.lat, endNode.lng⟩, ⟨net2, q0, [], 0⟩)
  | _, _ => none

/-- `RoadPathfinder.findPath(startLat, startLng, endLat, endLng)`:
returns the result object or `null`, together with the network as left
behind by the run. -/
noncomputable def findPath (net : RoadNetwork) (startLat startLng endLat endLng : ℝ) :
    Option FindPathOutput × RoadNetwork :=
  match findPathInit net startLat startLng endLat endLng with
  | none => (none, net.resetNodes)
  | some (ctx, s0) => searchLoop ctx (net.nodes.length + 1) s0

/-- Meters per degree of latitude under the source's haversine formula:
`6371000 * π / 180 ≈ 111194.9`. -/
noncomputable def Kd : ℝ := 6371000 * Real.pi / 180

/-! ## Operation sequences on the priority queue

To reason about stable tie-breaking "by insertion order", the generic
queue is instantiated with elements that are insertion sequence numbers:
`runOps` plays a list of operations, enqueueing the running operation
index as the element.  Since the queue is generic in its element type and
never inspects elements except for identity, this instance exhibits the
ordering discipline of every use of the queue. -/

/-- An enqueue (with a priority) or a dequeue. -/
inductive QOp (π : Type) where
  | enq (priority : π)
  | deq

/-- Play a list of queue operations, using the operation index as the
enqueued element, so that elements record insertion order. -/
def runOps {π : Type} [LinearOrder π] :
    List (QOp π) → Nat → PriorityQueue Nat π → PriorityQueue Nat π
  | [], _, q => q
  | QOp.enq p :: ops, i, q => runOps ops (i + 1) (q.enqueue i p)
  | QOp.deq :: ops, i, q => runOps ops (i + 1) q.dequeueRest

/-- Strict "extracted earlier" order on queue entries whose elements are
insertion sequence numbers: smaller priority first, insertion order among
equal priorities. -/
def entryRel {π : Type} [LinearOrder π] (a b : PQEntry Nat π) : Prop :=
  a.priority < b.priority ∨ (a.priority = b.priority ∧ a.element < b.element)

/-- The queue's `values` array is sorted by priority with ties in
insertion order (elements are insertion sequence numbers). -/
def StableInv {π : Type} [LinearOrder π] (l : List (PQEntry Nat π)) : Prop :=
  l.Pairwise entryRel

/-- A concrete operation sequence exercising ties: priorities 5, 3, 3,
one dequeue, then another 3. -/
def opsC8 : List (QOp ℤ) :=
  [QOp.enq 5, QOp.enq 3, QOp.enq 3, QOp.deq, QOp.enq 3]

/-! ## The per-iteration reachability relation of a search run -/

/-- `SearchReaches ctx s s'`: the state `s'` occurs during the search
loop started at `s` (zero or more `searchStep` iterations, following
`.next` outcomes). -/
inductive SearchReaches (ctx : SearchCtx) : SearchState → SearchState → Prop where
  | refl (s : SearchState) : SearchReaches ctx s s
  | tail {s t u : SearchState} : SearchReaches ctx s t →
      searchStep ctx t = StepRes.next u → SearchReaches ctx s u

/-- Invariant of every search-run state: the OPEN queue holds each node
id at most once, and no CLOSED node id is in the OPEN queue. -/
def SearchInv (s : SearchState) : Prop :=
  (s.openQ.values.map PQEntry.element).Nodup ∧
  ∀ x ∈ s.closed, x ∉ s.openQ.values.map PQEntry.element

/-! ## Concrete scenario data

Small concrete networks and inputs used to witness the theorems and to
refute the claims that fail.  Node scratch fields are at their reset
defaults so the networks look exactly like freshly built graphs. -/

/-- A graph node with the given connection list and default scratch state. -/
def nodeWith (id : Nat) (lat lng : ℝ) (conns : List (Nat × RoadEdge)) : RoadNode :=
  { id := id, lat := lat, lng := lng, connections := conns,
    g := ⊤, h := 0, f := ⊤, parent := none }

/-- A freshly constructed `RoadNetwork` (the JS constructor state). -/
def freshNet : RoadNetwork :=
  { nodes := [], edges := [], bounds := none, ready := false, loading := false,
    spatialIndex := none, nodeLocations := [], searchRadius := 100, loadProgress := 0 }

/-- An OSM response whose `elements` array is present but contains no
node elements (triggers the "No nodes found in data" failure). -/
def dNoNodes : OsmData := ⟨some []⟩

/-- A well-formed OSM response: two nodes 80 meters apart on a meridian
and one two-way residential road between them. -/
noncomputable def dGood : OsmData :=
  ⟨some
    [ { type := ("node" : String), id := 1, lat := some 0, lon := some 0,
        tags := none, nodes := none },
      { type := ("node" : String), id := 2, lat := some 0.0007, lon := some 0,
        tags := none, nodes := none },
      { type := ("way" : String), id := 9, lat := none, lon := none,
        tags := some { highway := some ("residential" : String), name := none, oneway := none },
        nodes := some [1, 2] } ]⟩

/-- The network left behind by a successful build from `dGood`. -/
noncomputable def prevNet : RoadNetwork := (freshNet.processOsmData dGood).1

/-- An OSM response with two distinct node ids at the *same* coordinates
joined by a way: the resulting edge has haversine distance zero. -/
noncomputable def dZeroLen : OsmData :=
  ⟨some
    [ { type := ("node" : String), id := 1, lat := some 0, lon := some 0,
        tags := none, nodes := none },
      { type := ("node" : String), id := 2, lat := some 0, lon := some 0,
        tags := none, nodes := none },
      { type := ("way" : String), id := 10, lat := none, lon := none,
        tags := some { highway := some ("residential" : String), name := none, oneway := none },
        nodes := some [1, 2] } ]⟩

/-- A ready one-node network (node 1 at the origin). -/
noncomputable def oneNodeNet : RoadNetwork :=
  RoadNetwork.buildSpatialIndex
    { nodes := [(1, nodeWith 1 0 0 [])], edges := [], bounds := none, ready := true,
      loading := false, spatialIndex := none, nodeLocations := [], searchRadius := 100,
      loadProgress := 100 }

/-- One-way edge from node 2 to node 1 of `pqNet` (length `Kd * 0.3`,
the haversine distance between its endpoints). -/
noncomputable def edgeQP : RoadEdge :=
  { id := edgeIdStr 21 0 false, source := 2, target := 1, distance := Kd * 0.3,
    roadType := ("residential" : String), wayId := some 21, name := ("" : String),
    path := [(0.3, 0), (0, 0)] }

/-- A ready two-node network: node 1 at the origin with no outgoing
edges, node 2 at latitude 0.3 with the single one-way edge to node 1.
From node 1 the goal node 2 is unreachable. -/
noncomputable def pqNet : RoadNetwork :=
  RoadNetwork.buildSpatialIndex
    { nodes := [(1, nodeWith 1 0 0 []), (2, nodeWith 2 0.3 0 [(1, edgeQP)])],
      edges := [(edgeQP.id, edgeQP)], bounds := none, ready := true, loading := false,
      spatialIndex := none, nodeLocations := [], searchRadius := 100, loadProgress := 100 }

/-- A ready one-node network whose single node sits 0.0009 degrees of
latitude from the origin: inside the `100 / 111000` degree candidate
circle, but slightly more than 100 meters of haversine distance away. -/
noncomputable def farNet : RoadNetwork :=
  RoadNetwork.buildSpatialIndex
    { nodes := [(1, nodeWith 1 0.0009 0 [])], edges := [], bounds := none, ready := true,
      loading := false, spatialIndex := none, nodeLocations := [], searchRadius := 100,
      loadProgress := 100 }

/-- Initial heuristic of the `pqNet` run: straight-line distance from
node 1 to node 2. -/
noncomputable def pqH0 : ℝ := heuristic (nodeWith 1 0 0 []) (nodeWith 2 0.3 0 [(1, edgeQP)])

/-- Start node of the `pqNet` run after initialisation. -/
noncomputable def pqStart : RoadNode :=
  { nodeWith 1 0 0 [] with
    g := ((0 : ℝ) : WithTop ℝ)
    h := pqH0
    f := ((pqH0 : ℝ) : WithTop ℝ) }

/-- Search context of the `pqNet` run (goal node 2 at latitude 0.3). -/
noncomputable def pqCtx : SearchCtx := ⟨2, 0.3, 0⟩

/-- Initial search state of the `pqNet` run. -/
noncomputable def pqS0 : SearchState :=
  { net := { pqNet with nodes := alSet pqNet.nodes 1 pqStart },
    openQ := ⟨[⟨1, ((pqH0 : ℝ) : WithTop ℝ)⟩]⟩, closed := [], explored := 0 }

/-- State of the `pqNet` run after its single productive iteration: node
1 extracted and closed; it has no outgoing edges, so the queue is empty. -/
noncomputable def pqS1 : SearchState :=
  { net := { pqNet with nodes := alSet pqNet.nodes 1 pqStart },
    openQ := ⟨[]⟩, closed := [1], explored := 1 }

/-- A resolved node as it appears in the trivial one-node path result:
`g = 0`, `h = 0` (the heuristic of a node against itself), `f = h = 0`. -/
noncomputable def trivialNode (n : RoadNode) : RoadNode :=
  { n with
    g := ((0 : ℝ) : WithTop ℝ)
    h := (0 : ℝ)
    f := ((0 : ℝ) : WithTop ℝ) }

/-! ### The stale-priority scenario (claim C4)

Five nodes on a meridian (all longitudes zero), goal node 5 at latitude
zero; the start node 1 is at latitude 0.03.  Every edge is one-way and
its `distance` is exactly the haversine distance of its endpoints.  Node
2 sits between the goal and node 4, so the route 1→2→4 has the same `f`
as the direct route estimate while being longer than 1→3→4; the stable
queue then relaxes node 4 via node 2 first and improves it via node 3
while it is OPEN. -/

/-- C4 scenario, edge 1→2 (`Kd * 0.025` meters). -/
noncomputable def eSA : RoadEdge :=
  { id := edgeIdStr 41 0 false, source := 1, target := 2, distance := Kd * 0.025,
    roadType := ("residential" : String), wayId := some 41, name := ("" : String),
    path := [(0.03, 0), (0.005, 0)] }

/-- C4 scenario, edge 1→3 (`Kd * 0.01` meters). -/
noncomputable def eSC : RoadEdge :=
  { id := edgeIdStr 42 0 false, source := 1, target := 3, distance := Kd * 0.01,
    roadType := ("residential" : String), wayId := some 42, name := ("" : String),
    path := [(0.03, 0), (0.02, 0)] }

/-- C4 scenario, edge 2→4 (`Kd * 0.005` meters). -/
noncomputable def eAB : RoadEdge :=
  { id := edgeIdStr 43 0 false, source := 2, target := 4, distance := Kd * 0.005,
    roadType := ("residential" : String), wayId := some 43, name := ("" : String),
    path := [(0.005, 0), (0.01, 0)] }

/-- C4 scenario, edge 3→4 (`Kd * 0.01` meters). -/
noncomputable def eCB : RoadEdge :=
  { id := edgeIdStr 44 0 false, source := 3, target := 4, distance := Kd * 0.01,
    roadType := ("residential" : String), wayId := some 44, name := ("" : String),
    path := [(0.02, 0), (0.01, 0)] }

/-- C4 scenario, edge 4→5 (`Kd * 0.01` meters). -/
noncomputable def eBG : RoadEdge :=
  { id := edgeIdStr 45 0 false, source := 4, target := 5, distance := Kd * 0.01,
    roadType := ("residential" : String), wayId := some 45, name := ("" : String),
    path := [(0.01, 0), (0, 0)] }

/-- The C4 scenario network. -/
noncomputable def staleNet : RoadNetwork :=
  RoadNetwork.buildSpatialIndex
    { nodes :=
        [ (1, nodeWith 1 0.03 0 [(2, eSA), (3, eSC)]),
          (2, nodeWith 2 0.005 0 [(4, eAB)]),
          (3, nodeWith 3 0.02 0 [(4, eCB)]),
          (4, nodeWith 4 0.01 0 [(5, eBG)]),
          (5, nodeWith 5 0 0 []) ],
      edges := [(eSA.id, eSA), (eSC.id, eSC), (eAB.id, eAB), (eCB.id, eCB), (eBG.id, eBG)],
      bounds := none, ready := true, loading := false, spatialIndex := none,
      nodeLocations := [], searchRadius := 100, loadProgress := 100 }

/-- Shorthand for a finite `WithTop ℝ` score of `Kd * q` meters. -/
noncomputable def KT (q : ℝ) : WithTop ℝ := ((Kd * q : ℝ) : WithTop ℝ)

/-- The search context of the C4 run (goal node 5 at the origin). -/
def staleCtx : SearchCtx := ⟨5, 0, 0⟩

/-- C4 run, state after initialisation (start node 1 scored `g = 0`,
`h = f = Kd * 0.03`, alone in the queue). -/
noncomputable def staleS0 : SearchState :=
  { net := { staleNet with nodes :=
      [ (1, { nodeWith 1 0.03 0 [(2, eSA), (3, eSC)] with
          g := ((0 : ℝ) : WithTop ℝ), h := Kd * 0.03, f := KT 0.03 }),
        (2, nodeWith 2 0.005 0 [(4, eAB)]),
        (3, nodeWith 3 0.02 0 [(4, eCB)]),
        (4, nodeWith 4 0.01 0 [(5, eBG)]),
        (5, nodeWith 5 0 0 []) ] },
    openQ := ⟨[⟨1, KT 0.03⟩]⟩, closed := [], explored := 0 }

/-- C4 run, state after the first iteration (node 1 closed; nodes 2 and 3
relaxed and enqueued, both with `f = Kd * 0.03`, node 2 first). -/
noncomputable def staleS1 : SearchState :=
  { net := { staleNet with nodes :=
      [ (1, { nodeWith 1 0.03 0 [(2, eSA), (3, eSC)] with
          g := ((0 : ℝ) : WithTop ℝ), h := Kd * 0.03, f := KT 0.03 }),
        (2, { nodeWith 2 0.005 0 [(4, eAB)] with
          g := KT 0.025, h := Kd * 0.005, f := KT 0.03, parent := some 1 }),
        (3, { nodeWith 3 0.02 0 [(4, eCB)] with
          g := KT 0.01, h := Kd * 0.02, f := KT 0.03, parent := some 1 }),
        (4, nodeWith 4 0.01 0 [(5, eBG)]),
        (5, nodeWith 5 0 0 []) ] },
    openQ := ⟨[⟨2, KT 0.03⟩, ⟨3, KT 0.03⟩]⟩, closed := [1], explored := 1 }

/-- C4 run, state after the second iteration (node 2 closed; node 4
relaxed through node 2 and enqueued with priority `f = Kd * 0.04`). -/
noncomputable def staleS2 : SearchState :=
  { net := { staleNet with nodes :=
      [ (1, { nodeWith 1 0.03 0 [(2, eSA), (3, eSC)] with
          g := ((0 : ℝ) : WithTop ℝ), h := Kd * 0.03, f := KT 0.03 }),
        (2, { nodeWith 2 0.005 0 [(4, eAB)] with
          g := KT 0.025, h := Kd * 0.005, f := KT 0.03, parent := some 1 }),
        (3, { nodeWith 3 0.02 0 [(4, eCB)] with
          g := KT 0.01, h := Kd * 0.02, f := KT 0.03, parent := some 1 }),
        (4, { nodeWith 4 0.01 0 [(5, eBG)] with
          g := KT 0.03, h := Kd * 0.01, f := KT 0.04, parent := some 2 }),
        (5, nodeWith 5 0 0 []) ] },
    openQ := ⟨[⟨3, KT 0.03⟩, ⟨4, KT 0.04⟩]⟩, closed := [1, 2], explored := 2 }

/-- C4 run, state after the third iteration: node 3 closed and node 4
improved (`g = Kd * 0.02`, `f = Kd * 0.03`) while already OPEN — but the
queue still holds node 4 under its original priority `Kd * 0.04`. -/
noncomputable def staleS3 : SearchState :=
  { net := { staleNet with nodes :=
      [ (1, { nodeWith 1 0.03 0 [(2, eSA), (3, eSC)] with
          g := ((0 : ℝ) : WithTop ℝ), h := Kd * 0.03, f := KT 0.03 }),
        (2, { nodeWith 2 0.005 0 [(4, eAB)] with
          g := KT 0.025, h := Kd * 0.005, f := KT 0.03, parent := some 1 }),
        (3, { nodeWith 3 0.02 0 [(4, eCB)] with
          g := KT 0.01, h := Kd * 0.02, f := KT 0.03, parent := some 1 }),
        (4, { nodeWith 4 0.01 0 [(5, eBG)] with
          g := KT 0.02, h := Kd * 0.01, f := KT 0.03, parent := some 3 }),
        (5, nodeWith 5 0 0 []) ] },
    openQ := ⟨[⟨4, KT 0.04⟩]⟩, closed := [1, 2, 3], explored := 3 }

/-! ## Facts about the haversine distance -/

theorem Kd_pos : 0 < Kd := by
  unfold Kd
  positivity

/-- Finite `WithTop` scores of the form `Kd * x` are below `⊤`. -/
theorem KdT_lt_top (x : ℝ) : ((Kd : WithTop ℝ) * ((x : ℝ) : WithTop ℝ)) < ⊤ := by
  rw [← WithTop.coe_mul]
  exact WithTop.coe_lt_top _

/-- Adding two finite `Kd`-multiples of `WithTop ℝ` scores. -/
theorem KdT_add (x y : ℝ) :
    (Kd : WithTop ℝ) * ((x : ℝ) : WithTop ℝ) + (Kd : WithTop ℝ) * ((y : ℝ) : WithTop ℝ) =
    (Kd : WithTop ℝ) * (((x + y : ℝ)) : WithTop ℝ) := by
  rw [← WithTop.coe_mul, ← WithTop.coe_mul, ← WithTop.coe_mul, ← WithTop.coe_add,
    WithTop.coe_eq_coe]
  ring

/-- Comparing two finite `Kd`-multiples of `WithTop ℝ` scores. -/
theorem KdT_lt_iff (x y : ℝ) :
    ((Kd : WithTop ℝ) * ((x : ℝ) : WithTop ℝ) < (Kd : WithTop ℝ) * ((y : ℝ) : WithTop ℝ)) ↔
    x < y := by
  rw [← WithTop.coe_mul, ← WithTop.coe_mul, WithTop.coe_lt_coe]
  exact mul_lt_mul_left Kd_pos

theorem atan2_pos_x (y x : ℝ) (hx : 0 < x) : atan2 y x = Real.arctan (y / x) := by
  simp [atan2, hx]

theorem arctan_nonneg_of (z : ℝ) (hz : 0 ≤ z) : 0 ≤ Real.arctan z := by
  have h := Real.arctan_strictMono.monotone hz
  rwa [Real.arctan_zero] at h

theorem atan2_nonneg {y x : ℝ} (hy : 0 ≤ y) (hx : 0 ≤ x) : 0 ≤ atan2 y x := by
  unfold atan2
  split_ifs with h1 h2 h3 h4
  all_goals first
    | exact arctan_nonneg_of _ (div_nonneg hy h1.le)
    | linarith [Real.pi_pos]

theorem hav_core_nonneg (R A : ℝ) (hR : 0 ≤ R) :
    0 ≤ R * (2 * atan2 (Real.sqrt A) (Real.sqrt (1 - A))) := by
  have h := atan2_nonneg (Real.sqrt_nonneg A) (Real.sqrt_nonneg (1 - A))
  have h2 : (0 : ℝ) ≤ 2 * atan2 (Real.sqrt A) (Real.sqrt (1 - A)) := by linarith
  exact mul_nonneg hR h2

/-- The haversine distance is never negative. -/
theorem calculateDistance_nonneg (lat1 lon1 lat2 lon2 : ℝ) :
    0 ≤ calculateDistance lat1 lon1 lat2 lon2 := by
  simp only [calculateDistance]
  exact hav_core_nonneg _ _ (by norm_num)

/-- The haversine distance between a point and itself is zero. -/
theorem calculateDistance_self (lat lng : ℝ) : calculateDistance lat lng lat lng = 0 := by
  simp only [calculateDistance]
  simp [atan2, Real.arctan_zero]

theorem hav_core_meridian (θ : ℝ) (hθ : |θ| < Real.pi / 2) :
    2 * atan2 (Real.sqrt (Real.sin θ * Real.sin θ))
      (Real.sqrt (1 - Real.sin θ * Real.sin θ)) = 2 * |θ| := by
  have habs := abs_lt.mp hθ
  have hcos : 0 < Real.cos θ := Real.cos_pos_of_mem_Ioo ⟨habs.1, habs.2⟩
  have h1 : Real.sqrt (Real.sin θ * Real.sin θ) = |Real.sin θ| :=
    Real.sqrt_mul_self_eq_abs _
  have h2 : 1 - Real.sin θ * Real.sin θ = Real.cos θ * Real.cos θ := by
    rw [← Real.sin_sq_add_cos_sq θ]
    ring
  have h3 : Real.sqrt (1 - Real.sin θ * Real.sin θ) = Real.cos θ := by
    rw [h2, Real.sqrt_mul_self_eq_abs, abs_of_pos hcos]
  have hpi2 : Real.pi / 2 ≤ Real.pi := by linarith [Real.pi_pos]
  have h4 : |Real.sin θ| = Real.sin |θ| := by
    rcases le_or_lt 0 θ with hpos | hneg
    · rw [abs_of_nonneg hpos,
        abs_of_nonneg (Real.sin_nonneg_of_nonneg_of_le_pi hpos (by linarith))]
    · have hsn : 0 ≤ Real.sin (-θ) :=
        Real.sin_nonneg_of_nonneg_of_le_pi (by linarith) (by linarith)
      rw [abs_of_neg hneg]
      rw [Real.sin_neg] at hsn
      rw [abs_of_nonpos (by linarith), Real.sin_neg]
  have h5 : |Real.sin θ| / Real.cos θ = Real.tan |θ| := by
    rw [h4, Real.tan_eq_sin_div_cos, Real.cos_abs]
  rw [h1, h3, atan2_pos_x _ _ hcos, h5,
    Real.arctan_tan (by linarith [abs_nonneg θ, Real.pi_pos]) hθ]

/-- Along a meridian (both longitudes zero) the haversine formula is
exactly linear in the latitude difference: `Kd` meters per degree. -/
theorem calculateDistance_meridian (a b : ℝ) (h : |b - a| < 180) :
    calculateDistance a 0 b 0 = Kd * |b - a| := by
  have hπ := Real.pi_pos
  simp only [calculateDistance]
  simp only [sub_self, zero_mul, zero_div, Real.sin_zero, mul_zero, add_zero]
  have habs : |(b - a) * Real.pi / 180 / 2| = |b - a| * Real.pi / 180 / 2 := by
    rw [abs_div, abs_div, abs_mul, abs_of_pos hπ]
    norm_num
  have hθ : |(b - a) * Real.pi / 180 / 2| < Real.pi / 2 := by
    rw [habs]
    nlinarith
  rw [hav_core_meridian _ hθ, habs, Kd]
  ring

/-- Specialisation: haversine distance from latitude `a` down to the
origin along the meridian. -/
theorem hav_lat0 (a : ℝ) (h0 : 0 ≤ a) (h1 : a < 180) :
    calculateDistance a 0 0 0 = Kd * a := by
  have habs : |(0 : ℝ) - a| = a := by
    rw [zero_sub, abs_neg, abs_of_nonneg h0]
  rw [calculateDistance_meridian a 0 (by rw [habs]; exact h1), habs]

/-- Specialisation: haversine distance from the origin up to latitude `b`
along the meridian. -/
theorem hav_lat0' (b : ℝ) (h0 : 0 ≤ b) (h1 : b < 180) :
    calculateDistance 0 0 b 0 = Kd * b := by
  have habs : |b - (0 : ℝ)| = b := by
    rw [sub_zero, abs_of_nonneg h0]
  rw [calculateDistance_meridian 0 b (by rw [habs]; exact h1), habs]

/-! ## Generic helper lemmas -/

theorem foldl_preserves {α β γ : Type} (f : β → α → β) (proj : β → γ)
    (hf : ∀ b a, proj (f b a) = proj b) (l : List α) (b : β) :
    proj (l.foldl f b) = proj b := by
  induction l generalizing b with
  | nil => rfl
  | cons a as ih => rw [List.foldl_cons, ih, hf]

theorem foldl_invariant {α β : Type} (f : β → α → β) (P : β → Prop)
    (hstep : ∀ b a, P b → P (f b a)) (l : List α) (b : β) (hb : P b) :
    P (l.foldl f b) := by
  induction l generalizing b with
  | nil => exact hb
  | cons a as ih => exact ih _ (hstep _ _ hb)

theorem alGet_set_self {κ β : Type} [DecidableEq κ] (m : List (κ × β)) (k : κ) (v : β) :
    alGet (alSet m k v) k = some v := by
  induction m with
  | nil => simp [alGet, alSet]
  | cons kv rest ih =>
    by_cases h : kv.1 = k
    · simp [alGet, alSet, h]
    · simp [alGet, alSet, h, ih]

theorem alGet_set_ne {κ β : Type} [DecidableEq κ] (m : List (κ × β)) (k k' : κ) (v : β)
    (h : k' ≠ k) : alGet (alSet m k v) k' = alGet m k' := by
  have hkk : ¬(k = k') := fun he => h he.symm
  induction m with
  | nil => simp [alGet, alSet, hkk]
  | cons kv rest ih =>
    by_cases hk : kv.1 = k
    · simp [alGet, alSet, hk, hkk]
    · simp only [alSet, if_neg hk, alGet]
      rw [ih]

theorem mem_alSet {κ β : Type} [DecidableEq κ] (m : List (κ × β)) (k : κ) (v : β) :
    ∀ kv ∈ alSet m k v, kv = (k, v) ∨ kv ∈ m := by
  induction m with
  | nil =>
    intro kv hkv
    simp only [alSet, List.mem_singleton] at hkv
    exact Or.inl hkv
  | cons hd rest ih =>
    intro kv hkv
    simp only [alSet] at hkv
    by_cases h : hd.1 = k
    · rw [if_pos h] at hkv
      rcases List.mem_cons.mp hkv with h1 | h1
      · exact Or.inl h1
      · exact Or.inr (List.mem_cons_of_mem _ h1)
    · rw [if_neg h] at hkv
      rcases List.mem_cons.mp hkv with h1 | h1
      · exact Or.inr (h1 ▸ List.mem_cons_self _ _)
      · rcases ih kv h1 with h2 | h2
        · exact Or.inl h2
        · exact Or.inr (List.mem_cons_of_mem _ h2)

/-! ## Field preservation through the graph builder -/

theorem clearOnError_ready (n : RoadNetwork) : (clearOnError n).ready = n.ready := rfl

theorem buildSpatialIndex_ready (n : RoadNetwork) :
    (RoadNetwork.buildSpatialIndex n).ready = n.ready := rfl

theorem ensureNode_ready (net : RoadNetwork) (id : Nat) (la lo : ℝ) :
    (ensureNode net id la lo).ready = net.ready := by
  unfold ensureNode
  split <;> rfl

theorem connectNodes_ready (net : RoadNetwork) (a b : Nat) (e : RoadEdge) :
    (connectNodes net a b e).ready = net.ready := by
  unfold connectNodes
  split <;> rfl

theorem processWayPair_ready (m : List (Nat × (ℝ × ℝ))) (way : OsmElement)
    (rt nm : String) (wn : List Nat) (net : RoadNetwork) (i : Nat) :
    (processWayPair m way rt nm wn net i).ready = net.ready := by
  unfold processWayPair
  split
  · split
    · split
      · simp [connectNodes_ready, ensureNode_ready]
      · simp [connectNodes_ready, ensureNode_ready]
    · rfl
  · rfl

theorem processWay_ready (m : List (Nat × (ℝ × ℝ))) (net : RoadNetwork) (w : OsmElement) :
    (processWay m net w).ready = net.ready := by
  unfold processWay
  cases hn : w.nodes with
  | none => rfl
  | some wayNodes =>
    by_cases hl : wayNodes.length < 2
    · simp [hl]
    · simp only [if_neg hl]
      exact foldl_preserves _ RoadNetwork.ready
        (fun b a => processWayPair_ready m w _ _ _ b a) _ net

/-- Claim C2 helper: every error outcome of `processOsmData` leaves the
node and edge maps empty and the ready flag false. -/
theorem processOsmData_error_clears (net : RoadNetwork) (data : OsmData) (e : String)
    (h : (net.processOsmData data).2 = Except.error e) :
    (net.processOsmData data).1.nodes = [] ∧ (net.processOsmData data).1.edges = [] ∧
    (net.processOsmData data).1.ready = false := by
  obtain ⟨els⟩ := data
  cases els with
  | none => exact ⟨rfl, rfl, rfl⟩
  | some elements =>
    simp only [RoadNetwork.processOsmData] at h ⊢
    split_ifs at h ⊢ with h1 h2 h3
    · exact ⟨rfl, rfl, rfl⟩
    · exact ⟨rfl, rfl, rfl⟩
    · refine ⟨rfl, rfl, ?_⟩
      rw [clearOnError_ready, buildSpatialIndex_ready]
      exact (foldl_preserves _ RoadNetwork.ready
        (fun b a => processWay_ready _ b a) _ _).trans rfl

theorem ensureNode_edges (net : RoadNetwork) (id : Nat) (la lo : ℝ) :
    (ensureNode net id la lo).edges = net.edges := by
  unfold ensureNode
  split <;> rfl

theorem connectNodes_edges (net : RoadNetwork) (a b : Nat) (e : RoadEdge) :
    (connectNodes net a b e).edges = net.edges := by
  unfold connectNodes
  split <;> rfl

/-- Every edge record inserted by the pair loop carries a haversine
distance, so nonnegativity of all stored edge distances is preserved. -/
theorem processWayPair_edges_nonneg (m : List (Nat × (ℝ × ℝ))) (way : OsmElement)
    (rt nm : String) (wn : List Nat) (net : RoadNetwork) (i : Nat)
    (hP : ∀ kv ∈ net.edges, 0 ≤ kv.2.distance) :
    ∀ kv ∈ (processWayPair m way rt nm wn net i).edges, 0 ≤ kv.2.distance := by
  unfold processWayPair
  split
  · split
    · split
      · simp only [connectNodes_edges, ensureNode_edges]
        intro kv hkv
        rcases mem_alSet _ _ _ kv hkv with h1 | h1
        · rw [h1]
          exact calculateDistance_nonneg _ _ _ _
        · rcases mem_alSet _ _ _ kv h1 with h2 | h2
          · rw [h2]
            exact calculateDistance_nonneg _ _ _ _
          · exact hP kv h2
      · simp only [connectNodes_edges, ensureNode_edges]
        intro kv hkv
        rcases mem_alSet _ _ _ kv hkv with h1 | h1
        · rw [h1]
          exact calculateDistance_nonneg _ _ _ _
        · exact hP kv h1
    · exact hP
  · exact hP

theorem processWay_edges_nonneg (m : List (Nat × (ℝ × ℝ))) (net : RoadNetwork)
    (w : OsmElement) (hP : ∀ kv ∈ net.edges, 0 ≤ kv.2.distance) :
    ∀ kv ∈ (processWay m net w).edges, 0 ≤ kv.2.distance := by
  unfold processWay
  cases hn : w.nodes with
  | none => exact hP
  | some wayNodes =>
    by_cases hl : wayNodes.length < 2
    · simpa [hl] using hP
    · simp only [if_neg hl]
      exact foldl_invariant _ (fun b => ∀ kv ∈ b.edges, 0 ≤ kv.2.distance)
        (fun b a hb => processWayPair_edges_nonneg m w _ _ _ b a hb) _ net hP

/-- All edge distances stored by `processOsmData` are nonnegative. -/
theorem processOsmData_edges_nonneg (net : RoadNetwork) (data : OsmData) :
    ∀ kv ∈ (net.processOsmData data).1.edges, 0 ≤ kv.2.distance := by
  obtain ⟨els⟩ := data
  cases els with
  | none => simp [RoadNetwork.processOsmData, clearOnError]
  | some elements =>
    simp only [RoadNetwork.processOsmData]
    split_ifs with h1 h2 h3
    · simp [clearOnError]
    · simp [clearOnError]
    · simp [clearOnError]
    · intro kv hkv
      simp only [RoadNetwork.buildSpatialIndex] at hkv
      refine foldl_invariant (fun acc w => processWay _ acc w)
        (fun b => ∀ kv ∈ b.edges, 0 ≤ kv.2.distance)
        (fun b a hb => processWay_edges_nonneg _ b a hb) _ _ (by simp) kv hkv

/-! ## Claims C1, C2, C6 -/

/-- Claim C2: for every input on which `processOsmData` fails, the node
and edge collections are empty after the failure and the ready flag is
false — no partial graph remains visible. -/
theorem C2_process_failure_clears_graph (net : RoadNetwork) (data : OsmData) (e : String)
    (h : (net.processOsmData data).2 = Except.error e) :
    (net.processOsmData data).1.nodes = [] ∧ (net.processOsmData data).1.edges = [] ∧
    (net.processOsmData data).1.ready = false :=
  processOsmData_error_clears net data e h

/-- Claim C2, witness: `processOsmData` on a response with an empty
element array fails with "No nodes found in data", and indeed leaves
empty node and edge maps and a false ready flag. -/
theorem C2_process_failure_clears_graph_witness :
    (freshNet.processOsmData dNoNodes).2 = Except.error ("No nodes found in data" : String) ∧
    ((freshNet.processOsmData dNoNodes).1.nodes = [] ∧
     (freshNet.processOsmData dNoNodes).1.edges = [] ∧
     (freshNet.processOsmData dNoNodes).1.ready = false) :=
  ⟨rfl, C2_process_failure_clears_graph freshNet dNoNodes _ rfl⟩

/-- Claim C1, counterexample: `prevNet` holds a previously successfully
built graph (ready, two nodes); a subsequent failing build does *not*
leave that graph intact — the node and edge collections are wiped. -/
theorem C1_counterexample_failed_rebuild_wipes_previous :
    prevNet.ready = true ∧ prevNet.nodes.length = 2 ∧ prevNet.edges.length = 2 ∧
    (prevNet.processOsmData dNoNodes).2 = Except.error ("No nodes found in data" : String) ∧
    (prevNet.processOsmData dNoNodes).1.nodes = [] ∧
    (prevNet.processOsmData dNoNodes).1.edges = [] :=
  ⟨rfl, rfl, rfl, rfl, rfl, rfl⟩

/-- Claim C1 (amended): a build that fails on an instance holding a
previously built graph does *not* preserve it — the previous nodes and
edges are discarded entirely (the state after the failure is the cleared
state, not the last known-good graph). -/
theorem C1_amended_failed_rebuild_discards_previous (net : RoadNetwork) (data : OsmData)
    (e : String) (hprev : net.nodes ≠ [])
    (h : (net.processOsmData data).2 = Except.error e) :
    (net.processOsmData data).1.nodes = [] ∧ (net.processOsmData data).1.edges = [] ∧
    (net.processOsmData data).1.nodes ≠ net.nodes := by
  obtain ⟨h1, h2, _⟩ := processOsmData_error_clears net data e h
  refine ⟨h1, h2, ?_⟩
  rw [h1]
  exact fun hc => hprev hc.symm

/-- Claim C1 (amended), witness: the previously built `prevNet` loses its
graph when a rebuild fails on an empty element array. -/
theorem C1_amended_witness :
    prevNet.nodes ≠ [] ∧
    ((prevNet.processOsmData dNoNodes).1.nodes = [] ∧
     (prevNet.processOsmData dNoNodes).1.edges = [] ∧
     (prevNet.processOsmData dNoNodes).1.nodes ≠ prevNet.nodes) := by
  have hlen : prevNet.nodes.length = 2 := rfl
  have hne : prevNet.nodes ≠ [] := by
    intro hc
    rw [hc] at hlen
    simp at hlen
  exact ⟨hne, C1_amended_failed_rebuild_discards_previous prevNet dNoNodes _ hne rfl⟩

/-- Claim C6, counterexample: a successful build from a way whose two
consecutive points carry identical coordinates produces an edge with
`distance = 0`, refuting "every edge's distance field is strictly greater
than zero ... including pairs whose two points coincide". -/
theorem C6_counterexample_zero_length_edge :
    (freshNet.processOsmData dZeroLen).2 = Except.ok () ∧
    (freshNet.processOsmData dZeroLen).1.ready = true ∧
    ((alGet (freshNet.processOsmData dZeroLen).1.edges (edgeIdStr 10 0 false)).map
      RoadEdge.distance) = some 0 := by
  refine ⟨rfl, rfl, ?_⟩
  have h : ((alGet (freshNet.processOsmData dZeroLen).1.edges (edgeIdStr 10 0 false)).map
      RoadEdge.distance) = some (calculateDistance 0 0 0 0) := rfl
  rw [h, calculateDistance_self]

/-- Claim C6 (amended): in every successfully built graph every edge's
distance field is *nonnegative* (it is zero exactly for coincident
consecutive points, so strict positivity does not hold in general). -/
theorem C6_amended_edge_distances_nonneg (net : RoadNetwork) (data : OsmData)
    (_h : (net.processOsmData data).2 = Except.ok ()) :
    ∀ kv ∈ (net.processOsmData data).1.edges, 0 ≤ kv.2.distance :=
  processOsmData_edges_nonneg net data

/-- Claim C6 (amended), witness: the zero-length-edge build succeeds and
all its stored edges have nonnegative distance. -/
theorem C6_amended_witness :
    (freshNet.processOsmData dZeroLen).2 = Except.ok () ∧
    (∀ kv ∈ (freshNet.processOsmData dZeroLen).1.edges, 0 ≤ kv.2.distance) :=
  ⟨rfl, C6_amended_edge_distances_nonneg freshNet dZeroLen rfl⟩

/-! ## Stability of the priority queue (claim C8) -/

theorem mem_insertStable {ε π : Type} [LinearOrder π] (y : PQEntry ε π)
    (L : List (PQEntry ε π)) (z : PQEntry ε π) :
    z ∈ insertStable y L ↔ z = y ∨ z ∈ L := by
  induction L with
  | nil => simp [insertStable]
  | cons w ws ih =>
    by_cases h : w.priority < y.priority
    · rw [insertStable, if_pos h, List.mem_cons, List.mem_cons, ih]
      tauto
    · rw [insertStable, if_neg h, List.mem_cons]

theorem mem_sortStable {ε π : Type} [LinearOrder π] (L : List (PQEntry ε π))
    (z : PQEntry ε π) : z ∈ sortStable L ↔ z ∈ L := by
  induction L with
  | nil => simp [sortStable]
  | cons w ws ih =>
    rw [sortStable, mem_insertStable, ih, List.mem_cons]

theorem insertStable_stableInv {π : Type} [LinearOrder π] (L : List (PQEntry Nat π))
    (y : PQEntry Nat π) (hL : StableInv L)
    (hy : ∀ z ∈ L, y.priority = z.priority → y.element < z.element) :
    StableInv (insertStable y L) := by
  induction L with
  | nil => simp [insertStable, StableInv]
  | cons z zs ih =>
    rcases List.pairwise_cons.mp hL with ⟨hz, hzs⟩
    by_cases h : z.priority < y.priority
    · rw [insertStable, if_pos h]
      refine List.pairwise_cons.mpr ⟨?_, ih hzs (fun w hw => hy w (List.mem_cons_of_mem _ hw))⟩
      intro w hw
      rcases (mem_insertStable _ _ _).mp hw with h1 | h1
      · rw [h1]
        exact Or.inl h
      · exact hz w h1
    · rw [insertStable, if_neg h]
      refine List.pairwise_cons.mpr ⟨?_, hL⟩
      intro w hw
      rcases List.mem_cons.mp hw with h1 | h1
      · rcases lt_or_eq_of_le (not_lt.mp h) with h2 | h2
        · rw [h1]
          exact Or.inl h2
        · rw [h1]
          exact Or.inr ⟨h2, hy z (List.mem_cons_self _ _) h2⟩
      · rcases hz w h1 with h2 | h2
        · rcases lt_or_eq_of_le (not_lt.mp h) with h3 | h3
          · exact Or.inl (lt_trans h3 h2)
          · exact Or.inl (by rw [h3]; exact h2)
        · rcases lt_or_eq_of_le (not_lt.mp h) with h3 | h3
          · exact Or.inl (by rw [← h2.1]; exact h3)
          · refine Or.inr ⟨h3.trans h2.1, ?_⟩
            exact lt_trans (hy z (List.mem_cons_self _ _) h3) h2.2

theorem sortStable_stableInv {π : Type} [LinearOrder π] (L : List (PQEntry Nat π))
    (hL : L.Pairwise (fun a b => a.priority = b.priority → a.element < b.element)) :
    StableInv (sortStable L) := by
  induction L with
  | nil => simp [sortStable, StableInv]
  | cons y ys ih =>
    rcases List.pairwise_cons.mp hL with ⟨hy, hys⟩
    rw [sortStable]
    refine insertStable_stableInv _ _ (ih hys) ?_
    intro z hz
    exact hy z ((mem_sortStable _ _).mp hz)

theorem stableInv_weak {π : Type} [LinearOrder π] (L : List (PQEntry Nat π))
    (h : StableInv L) :
    L.Pairwise (fun a b => a.priority = b.priority → a.element < b.element) := by
  refine h.imp ?_
  intro a b hab
  rcases hab with h1 | h1
  · exact fun heq => absurd (heq ▸ h1) (lt_irrefl _)
  · exact fun _ => h1.2

theorem runOps_inv {π : Type} [LinearOrder π] (ops : List (QOp π)) (i : Nat)
    (q : PriorityQueue Nat π) (h1 : StableInv q.values)
    (h2 : ∀ e ∈ q.values, e.element < i) :
    StableInv (runOps ops i q).values ∧
    ∀ e ∈ (runOps ops i q).values, e.element < i + ops.length := by
  induction ops generalizing i q with
  | nil => exact ⟨h1, fun e he => by simpa using h2 e he⟩
  | cons op ops ih =>
    cases op with
    | enq p =>
      rw [runOps]
      have hnew : StableInv (q.enqueue i p).values := by
        refine sortStable_stableInv _ ?_
        rw [List.pairwise_append]
        refine ⟨stableInv_weak _ h1, by simp, ?_⟩
        intro a ha b hb _
        rw [List.mem_singleton.mp hb]
        exact h2 a ha
      have hbnd : ∀ e ∈ (q.enqueue i p).values, e.element < i + 1 := by
        intro e he
        rcases List.mem_append.mp ((mem_sortStable _ _).mp he) with h3 | h3
        · exact lt_trans (h2 e h3) (Nat.lt_succ_self i)
        · rw [List.mem_singleton.mp h3]
          exact Nat.lt_succ_self i
      obtain ⟨ha, hb⟩ := ih (i + 1) (q.enqueue i p) hnew hbnd
      refine ⟨ha, fun e he => ?_⟩
      have := hb e he
      simp only [List.length_cons]
      omega
    | deq =>
      rw [runOps]
      have hnew : StableInv q.dequeueRest.values := by
        unfold PriorityQueue.dequeueRest
        cases hv : q.values with
        | nil => simp [StableInv]
        | cons hd tl =>
          rw [hv] at h1
          exact (List.pairwise_cons.mp h1).2
      have hbnd : ∀ e ∈ q.dequeueRest.values, e.element < i + 1 := by
        intro e he
        unfold PriorityQueue.dequeueRest at he
        exact lt_trans (h2 e (List.mem_of_mem_tail he)) (Nat.lt_succ_self i)
      obtain ⟨ha, hb⟩ := ih (i + 1) q.dequeueRest hnew hbnd
      refine ⟨ha, fun e he => ?_⟩
      have := hb e he
      simp only [List.length_cons]
      omega

/-- Claim C8: for every sequence of enqueue and dequeue operations
(elements instantiated with insertion sequence numbers, which the generic
queue treats as opaque), the entry returned by `dequeue` has minimum
priority, and among entries of equal priority it is the earliest
inserted: stable tie-breaking by insertion order. -/
theorem C8_dequeue_min_stable {π : Type} [LinearOrder π] (ops : List (QOp π))
    (entry : PQEntry Nat π)
    (h : (runOps ops 0 ⟨[]⟩).dequeueEntry = some entry) :
    ∀ e ∈ (runOps ops 0 ⟨[]⟩).values,
      entry.priority ≤ e.priority ∧
      (entry.priority = e.priority → entry.element ≤ e.element) := by
  obtain ⟨hs, _⟩ := runOps_inv ops 0 ⟨[]⟩ (by simp [StableInv]) (by simp)
  intro e he
  cases hv : (runOps ops 0 ⟨[]⟩).values with
  | nil =>
    rw [hv] at he
    simp at he
  | cons hd tl =>
    have hhd : entry = hd := by
      unfold PriorityQueue.dequeueEntry at h
      rw [hv] at h
      simpa using h.symm
    rw [hv] at he hs
    rcases List.mem_cons.mp he with h1 | h1
    · refine ⟨le_of_eq (by rw [hhd, h1]), fun _ => le_of_eq (by rw [hhd, h1])⟩
    · have hrel := (List.pairwise_cons.mp hs).1 e h1
      rw [hhd]
      rcases hrel with h2 | h2
      · exact ⟨le_of_lt h2, fun heq => absurd (heq ▸ h2) (lt_irrefl _)⟩
      · exact ⟨le_of_eq h2.1, fun _ => le_of_lt h2.2⟩

/-- Claim C8, witness: playing `[enq 5, enq 3, enq 3, deq, enq 3]` the
front entry is the second-inserted of the three priority-3 entries (the
first was dequeued), and it is minimal and earliest among equals. -/
theorem C8_dequeue_min_stable_witness :
    (runOps opsC8 0 ⟨[]⟩).dequeueEntry = some ⟨2, (3 : ℤ)⟩ ∧
    ∀ e ∈ (runOps opsC8 0 ⟨[]⟩).values,
      (⟨2, (3 : ℤ)⟩ : PQEntry Nat ℤ).priority ≤ e.priority ∧
      ((⟨2, (3 : ℤ)⟩ : PQEntry Nat ℤ).priority = e.priority →
        (⟨2, (3 : ℤ)⟩ : PQEntry Nat ℤ).element ≤ e.element) :=
  ⟨rfl, C8_dequeue_min_stable opsC8 _ rfl⟩

/-! ## The search loop only mutates per-node scratch state (claim C9) -/

theorem RoadNode.reset_reset (n : RoadNode) : n.reset.reset = n.reset := rfl

theorem resetNodes_idem (net : RoadNetwork) : net.resetNodes.resetNodes = net.resetNodes := by
  simp only [RoadNetwork.resetNodes, List.map_map]
  rfl

theorem alGet_mem {κ β : Type} [DecidableEq κ] (m : List (κ × β)) (k : κ) (v : β)
    (h : alGet m k = some v) : (k, v) ∈ m := by
  induction m with
  | nil => simp [alGet] at h
  | cons kv rest ih =>
    by_cases hk : kv.1 = k
    · rw [alGet, if_pos hk] at h
      injection h with h2
      obtain ⟨a, b⟩ := kv
      dsimp only at hk h2
      rw [← hk, ← h2]
      exact List.mem_cons_self _ _
    · rw [alGet, if_neg hk] at h
      exact List.mem_cons_of_mem _ (ih h)

theorem map_reset_alSet (m : List (Nat × RoadNode)) (k : Nat) (n n' : RoadNode)
    (hget : alGet m k = some n) (hres : n'.reset = n.reset) :
    (alSet m k n').map (fun kv => (kv.1, kv.2.reset)) =
      m.map (fun kv => (kv.1, kv.2.reset)) := by
  induction m with
  | nil => simp [alGet] at hget
  | cons kv rest ih =>
    by_cases hk : kv.1 = k
    · rw [alGet, if_pos hk] at hget
      injection hget with h2
      rw [alSet, if_pos hk]
      simp only [List.map_cons]
      rw [hk, hres, h2]
    · rw [alGet, if_neg hk] at hget
      rw [alSet, if_neg hk]
      simp only [List.map_cons]
      rw [ih hget]

/-- Updating one node with reset-equal scratch data does not change the
reset image of the network. -/
theorem resetNodes_set_search (net : RoadNetwork) (k : Nat) (n n' : RoadNode)
    (hget : alGet net.nodes k = some n) (hres : n'.reset = n.reset) :
    RoadNetwork.resetNodes { net with nodes := alSet net.nodes k n' } = net.resetNodes := by
  simp only [RoadNetwork.resetNodes]
  congr 1
  exact map_reset_alSet _ _ _ _ hget hres

theorem relaxStep_resetNodes (ctx : SearchCtx) (closed : List Nat) (cid : Nat)
    (cg : WithTop ℝ) (acc : RoadNetwork × PriorityQueue Nat (WithTop ℝ))
    (nb : Nat × RoadEdge) :
    (relaxStep ctx closed cid cg acc nb).1.resetNodes = acc.1.resetNodes := by
  unfold relaxStep
  by_cases h1 : nb.1 ∈ closed
  · rw [if_pos h1]
  · rw [if_neg h1]
    cases hget : alGet acc.1.nodes nb.1 with
    | none => rfl
    | some neighbor =>
      dsimp only
      by_cases h2 : cg + (nb.2.distance : WithTop ℝ) < neighbor.g
      · rw [if_pos h2]
        by_cases h3 : acc.2.contains nb.1 = true
        · rw [if_pos h3]
          exact resetNodes_set_search _ _ _ _ hget rfl
        · rw [if_neg h3]
          exact resetNodes_set_search _ _ _ _ hget rfl
      · rw [if_neg h2]

theorem searchStep_emptyQueue_net (ctx : SearchCtx) (s s2 : SearchState)
    (h : searchStep ctx s = StepRes.emptyQueue s2) : s2.net = s.net := by
  simp only [searchStep] at h
  split at h
  · injection h with h2
    rw [← h2]
  · split at h
    · exact StepRes.noConfusion h
    · split_ifs at h

theorem searchStep_found_net (ctx : SearchCtx) (out : FindPathOutput) (s s2 : SearchState)
    (h : searchStep ctx s = StepRes.found out s2) : s2.net = s.net := by
  simp only [searchStep] at h
  split at h
  · exact StepRes.noConfusion h
  · split at h
    · exact StepRes.noConfusion h
    · split_ifs at h
      all_goals
        first
        | exact StepRes.noConfusion h
        | (injection h with h1 h2
           rw [← h2])

theorem searchStep_next_resetNodes (ctx : SearchCtx) (s s2 : SearchState)
    (h : searchStep ctx s = StepRes.next s2) : s2.net.resetNodes = s.net.resetNodes := by
  simp only [searchStep] at h
  split at h
  · exact StepRes.noConfusion h
  · split at h
    · injection h with h2
      rw [← h2]
    · split_ifs at h
      all_goals
        first
        | exact StepRes.noConfusion h
        | (injection h with h2
           rw [← h2]
           exact foldl_preserves _ (fun acc => acc.1.resetNodes)
             (fun b a => relaxStep_resetNodes _ _ _ _ b a) _ _)

theorem searchLoop_resetNodes (ctx : SearchCtx) (fuel : Nat) (s : SearchState) :
    (searchLoop ctx fuel s).2.resetNodes = s.net.resetNodes := by
  induction fuel generalizing s with
  | zero => rfl
  | succ n ih =>
    rw [searchLoop]
    cases hstep : searchStep ctx s with
    | emptyQueue s2 => simp only [searchStep_emptyQueue_net ctx s s2 hstep]
    | found out s2 => simp only [searchStep_found_net ctx out s s2 hstep]
    | next s2 => rw [ih s2, searchStep_next_resetNodes ctx s s2 hstep]

/-- One scan step either keeps the accumulator or delivers a node looked
up in the node map (at distance exactly the haversine distance to the
query point). -/
theorem nearestScan_cases (net : RoadNetwork) (lat lng : ℝ)
    (acc : Option (RoadNode × ℝ)) (i : Nat) (m : RoadNode) (dm : ℝ)
    (h : nearestScan net lat lng acc i = some (m, dm)) :
    acc = some (m, dm) ∨
    ((∃ loc, net.nodeLocations.get? i = some loc ∧ alGet net.nodes loc.id = some m) ∧
      dm = calculateDistance lat lng m.lat m.lng) := by
  simp only [nearestScan] at h
  split at h
  · exact Or.inl h
  · rename_i loc hloc
    split at h
    · exact Or.inl h
    · rename_i node hnode
      split at h
      · injection h with h2
        injection h2 with ha hb
        subst ha
        subst hb
        exact Or.inr ⟨⟨loc, hloc, hnode⟩, rfl⟩
      · split_ifs at h
        · injection h with h2
          injection h2 with ha hb
          subst ha
          subst hb
          exact Or.inr ⟨⟨loc, hloc, hnode⟩, rfl⟩
        · exact Or.inl h

/-- The node delivered by the candidate fold was looked up in the node
map under some key. -/
theorem nearestFold_from_nodes (net : RoadNetwork) (lat lng : ℝ) (idxs : List Nat)
    (n : RoadNode) (d : ℝ) (h : nearestFold net lat lng idxs = some (n, d)) :
    ∃ k, alGet net.nodes k = some n := by
  unfold nearestFold at h
  suffices hgen : ∀ (idxs : List Nat) (acc : Option (RoadNode × ℝ)),
      (∀ m dm, acc = some (m, dm) → ∃ k, alGet net.nodes k = some m) →
      ∀ m dm, idxs.foldl (nearestScan net lat lng) acc = some (m, dm) →
      ∃ k, alGet net.nodes k = some m by
    exact hgen idxs none (by intro m dm hc; cases hc) n d h
  intro idxs
  induction idxs with
  | nil =>
    intro acc hacc m dm h0
    exact hacc m dm h0
  | cons i rest ih =>
    intro acc hacc m dm h0
    rw [List.foldl_cons] at h0
    refine ih _ ?_ m dm h0
    intro m2 dm2 hc
    rcases nearestScan_cases net lat lng acc i m2 dm2 hc with h1 | h1
    · exact hacc m2 dm2 h1
    · obtain ⟨⟨loc, _, hnode⟩, _⟩ := h1
      exact ⟨loc.id, hnode⟩

/-- In a well-keyed network (every stored node's `id` equals its map
key), the node returned by `findNearestNode` is found in the map under
its own id. -/
theorem findNearestNode_alGet (net : RoadNetwork) (lat lng : ℝ) (n : RoadNode)
    (hwk : ∀ kv ∈ net.nodes, kv.2.id = kv.1)
    (h : net.findNearestNode lat lng = some n) : alGet net.nodes n.id = some n := by
  simp only [RoadNetwork.findNearestNode] at h
  split_ifs at h
  split at h
  · exact Option.noConfusion h
  · split_ifs at h
    split at h
    · rename_i best hbest
      injection h with h2
      obtain ⟨k, hk⟩ := nearestFold_from_nodes _ _ _ _ best.1 best.2 hbest
      rw [← h2]
      have hid : best.1.id = k := hwk (k, best.1) (alGet_mem _ _ _ hk)
      rw [hid]
      exact hk
    · exact Option.noConfusion h

theorem resetNodes_wellKeyed (net : RoadNetwork)
    (hwk : ∀ kv ∈ net.nodes, kv.2.id = kv.1) :
    ∀ kv ∈ net.resetNodes.nodes, kv.2.id = kv.1 := by
  intro kv hkv
  simp only [RoadNetwork.resetNodes, List.mem_map] at hkv
  obtain ⟨kv0, hkv0, hkveq⟩ := hkv
  rw [← hkveq]
  exact hwk kv0 hkv0

theorem findPathInit_net_resetNodes (net : RoadNetwork) (a b c d : ℝ)
    (ctx : SearchCtx) (s0 : SearchState)
    (hwk : ∀ kv ∈ net.nodes, kv.2.id = kv.1)
    (h : findPathInit net a b c d = some (ctx, s0)) :
    s0.net.resetNodes = net.resetNodes := by
  simp only [findPathInit] at h
  split at h
  case _ startNode endNode hs he =>
    injection h with h2
    injection h2 with hctx hs0
    rw [← hs0]
    have hget := findNearestNode_alGet _ _ _ _ (resetNodes_wellKeyed net hwk) hs
    have := resetNodes_set_search net.resetNodes startNode.id startNode
      ({ startNode with
          g := ((0 : ℝ) : WithTop ℝ)
          h := heuristic startNode endNode
          f := ((heuristic startNode endNode : ℝ) : WithTop ℝ) }) hget rfl
    simp only at this ⊢
    rw [this, resetNodes_idem]
  case _ => cases h

theorem findPath_resetNodes (net : RoadNetwork) (a b c d : ℝ)
    (hwk : ∀ kv ∈ net.nodes, kv.2.id = kv.1) :
    (findPath net a b c d).2.resetNodes = net.resetNodes := by
  unfold findPath
  cases hinit : findPathInit net a b c d with
  | none => exact resetNodes_idem net
  | some p =>
    obtain ⟨ctx, s0⟩ := p
    rw [searchLoop_resetNodes]
    exact findPathInit_net_resetNodes net a b c d ctx s0 hwk hinit

theorem resetNodes_nodes_length (net : RoadNetwork) :
    net.resetNodes.nodes.length = net.nodes.length := by
  simp [RoadNetwork.resetNodes]

theorem findPath_congr (x y : RoadNetwork) (a b c d : ℝ)
    (h : x.resetNodes = y.resetNodes) :
    findPath x a b c d = findPath y a b c d := by
  have hlen : x.nodes.length = y.nodes.length := by
    rw [← resetNodes_nodes_length x, ← resetNodes_nodes_length y, h]
  have hinit : findPathInit x a b c d = findPathInit y a b c d := by
    unfold findPathInit
    rw [h]
  unfold findPath
  rw [hinit, hlen, h]

/-! ## Concrete nearest-node resolutions -/

theorem oneNodeNet_resolve :
    oneNodeNet.findNearestNode 0 0 = some (nodeWith 1 0 0 []) := by
  have hr : List.range 1 = [0] := rfl
  simp only [RoadNetwork.findNearestNode, oneNodeNet, RoadNetwork.buildSpatialIndex,
    kdWithin, nearestFold, nearestScan, alGet, nodeWith, hr, List.map, List.filter,
    List.get?, List.foldl, List.length]
  norm_num [nearestScan, alGet, List.get?, nodeWith]

theorem pqNet_resolve_start :
    pqNet.findNearestNode 0 0 = some (nodeWith 1 0 0 []) := by
  have hr : List.range 2 = [0, 1] := rfl
  simp only [RoadNetwork.findNearestNode, pqNet, RoadNetwork.buildSpatialIndex,
    kdWithin, nearestFold, nearestScan, alGet, nodeWith, hr, List.map, List.filter,
    List.get?, List.foldl, List.length]
  norm_num [nearestScan, alGet, List.get?, nodeWith]

theorem pqNet_resolve_end :
    pqNet.findNearestNode 0.3 0 = some (nodeWith 2 0.3 0 [(1, edgeQP)]) := by
  have hr : List.range 2 = [0, 1] := rfl
  simp only [RoadNetwork.findNearestNode, pqNet, RoadNetwork.buildSpatialIndex,
    kdWithin, nearestFold, nearestScan, alGet, nodeWith, hr, List.map, List.filter,
    List.get?, List.foldl, List.length]
  norm_num [nearestScan, alGet, List.get?, nodeWith]

theorem pqNet_resolve_far :
    pqNet.findNearestNode 1 1 = none := by
  have hr : List.range 2 = [0, 1] := rfl
  simp only [RoadNetwork.findNearestNode, pqNet, RoadNetwork.buildSpatialIndex,
    kdWithin, nearestFold, nearestScan, alGet, nodeWith, hr, List.map, List.filter,
    List.get?, List.foldl, List.length]
  norm_num

theorem oneNodeNet_wellKeyed : ∀ kv ∈ oneNodeNet.nodes, kv.2.id = kv.1 := by
  intro kv hkv
  have h : oneNodeNet.nodes = [(1, nodeWith 1 0 0 [])] := rfl
  rw [h] at hkv
  simp only [List.mem_singleton] at hkv
  rw [hkv]
  rfl

/-! ## Claim C9 -/

/-- Claim C9: running `findPath` twice in succession — the second run on
the network state left behind by the first — yields the same result
object (same node sequence, segments and totals).  `findPath` begins with
`resetNodes`, and the loop mutates only per-node scratch fields, so the
second run sees the same reset graph.  (The well-keyedness hypothesis —
every stored node's id equals its map key — holds for all graphs the
builder produces; it ties the embedding's map updates to JS object
mutation.) -/
theorem C9_findPath_deterministic (net : RoadNetwork) (a b c d : ℝ)
    (hwk : ∀ kv ∈ net.nodes, kv.2.id = kv.1) :
    (findPath ((findPath net a b c d).2) a b c d).1 = (findPath net a b c d).1 := by
  rw [findPath_congr _ net a b c d (findPath_resetNodes net a b c d hwk)]

/-- Claim C9, witness: the two successive runs on the one-node network
agree. -/
theorem C9_findPath_deterministic_witness :
    (∀ kv ∈ oneNodeNet.nodes, kv.2.id = kv.1) ∧
    (findPath ((findPath oneNodeNet 0 0 0 0).2) 0 0 0 0).1 =
      (findPath oneNodeNet 0 0 0 0).1 :=
  ⟨oneNodeNet_wellKeyed, C9_findPath_deterministic oneNodeNet 0 0 0 0 oneNodeNet_wellKeyed⟩

/-! ## Claim C7: CLOSED nodes never return to OPEN -/

theorem insertStable_perm {ε π : Type} [LinearOrder π] (y : PQEntry ε π)
    (L : List (PQEntry ε π)) : List.Perm (insertStable y L) (y :: L) := by
  induction L with
  | nil => exact List.Perm.refl _
  | cons w ws ih =>
    by_cases h : w.priority < y.priority
    · rw [insertStable, if_pos h]
      exact (List.Perm.cons w ih).trans (List.Perm.swap y w ws)
    · rw [insertStable, if_neg h]

theorem sortStable_perm {ε π : Type} [LinearOrder π] (L : List (PQEntry ε π)) :
    List.Perm (sortStable L) L := by
  induction L with
  | nil => exact List.Perm.refl _
  | cons x xs ih =>
    rw [sortStable]
    exact (insertStable_perm x (sortStable xs)).trans (List.Perm.cons x ih)

theorem enqueue_elems_perm {ε π : Type} [LinearOrder π] (q : PriorityQueue ε π)
    (e : ε) (p : π) :
    List.Perm ((q.enqueue e p).values.map PQEntry.element)
      (q.values.map PQEntry.element ++ [e]) := by
  have h1 := (sortStable_perm (q.values ++ [(⟨e, p⟩ : PQEntry ε π)])).map PQEntry.element
  simpa using h1

theorem contains_iff_mem {ε π : Type} [DecidableEq ε] (q : PriorityQueue ε π) (e : ε) :
    q.contains e = true ↔ e ∈ q.values.map PQEntry.element := by
  simp [PriorityQueue.contains, List.any_eq_true, List.mem_map]

theorem relaxStep_inv (ctx : SearchCtx) (closed : List Nat) (cid : Nat)
    (cg : WithTop ℝ) (acc : RoadNetwork × PriorityQueue Nat (WithTop ℝ))
    (nb : Nat × RoadEdge)
    (h1 : (acc.2.values.map PQEntry.element).Nodup)
    (h2 : ∀ x ∈ closed, x ∉ acc.2.values.map PQEntry.element) :
    ((relaxStep ctx closed cid cg acc nb).2.values.map PQEntry.element).Nodup ∧
    ∀ x ∈ closed, x ∉ (relaxStep ctx closed cid cg acc nb).2.values.map PQEntry.element := by
  unfold relaxStep
  by_cases hc : nb.1 ∈ closed
  · rw [if_pos hc]
    exact ⟨h1, h2⟩
  · rw [if_neg hc]
    cases hget : alGet acc.1.nodes nb.1 with
    | none => exact ⟨h1, h2⟩
    | some neighbor =>
      dsimp only
      by_cases hlt : cg + (nb.2.distance : WithTop ℝ) < neighbor.g
      · rw [if_pos hlt]
        by_cases hcont : acc.2.contains nb.1 = true
        · rw [if_pos hcont]
          exact ⟨h1, h2⟩
        · rw [if_neg hcont]
          have hnotmem : nb.1 ∉ acc.2.values.map PQEntry.element := by
            intro hmem
            exact hcont ((contains_iff_mem _ _).mpr hmem)
          have hperm := enqueue_elems_perm acc.2 nb.1
            (cg + (nb.2.distance : WithTop ℝ) +
              ((calculateDistance neighbor.lat neighbor.lng ctx.endLat ctx.endLng : ℝ) :
                WithTop ℝ))
          constructor
          · refine (hperm.nodup_iff).mpr ?_
            rw [List.nodup_append]
            exact ⟨h1, List.nodup_singleton _, by
              intro x hx hx2
              rw [List.mem_singleton.mp hx2] at hx
              exact hnotmem hx⟩
          · intro x hx hmem
            have := hperm.mem_iff.mp hmem
            rcases List.mem_append.mp this with h3 | h3
            · exact h2 x hx h3
            · rw [List.mem_singleton.mp h3] at hx
              exact hc hx
      · rw [if_neg hlt]
        exact ⟨h1, h2⟩

theorem searchStep_inv (ctx : SearchCtx) (s s2 : SearchState)
    (h : searchStep ctx s = StepRes.next s2) (hinv : SearchInv s) :
    SearchInv s2 ∧ ∀ x ∈ s.closed, x ∈ s2.closed := by
  obtain ⟨hnd, hcl⟩ := hinv
  simp only [searchStep] at h
  split at h
  · exact StepRes.noConfusion h
  · rename_i entry rest hq
    rw [hq] at hnd hcl
    simp only [List.map_cons] at hnd hcl
    have hndr : (rest.map PQEntry.element).Nodup := hnd.of_cons
    have hhead : entry.element ∉ rest.map PQEntry.element := (List.nodup_cons.mp hnd).1
    split at h
    · injection h with h2
      rw [← h2]
      refine ⟨⟨hndr, fun x hx hmem => hcl x hx (List.mem_cons_of_mem _ hmem)⟩, fun x hx => hx⟩
    · rename_i current hcur
      by_cases hgoal : entry.element = ctx.endId
      · rw [if_pos hgoal] at h
        exact StepRes.noConfusion h
      · rw [if_neg hgoal] at h
        by_cases hclosed : entry.element ∈ s.closed
        · rw [if_pos hclosed] at h
          injection h with h2
          rw [← h2]
          have hfold := foldl_invariant (relaxStep ctx s.closed entry.element current.g)
            (fun p => (p.2.values.map PQEntry.element).Nodup ∧
              ∀ x ∈ s.closed, x ∉ p.2.values.map PQEntry.element)
            (fun b a hb => relaxStep_inv ctx s.closed entry.element current.g b a hb.1 hb.2)
            (s.net.getNodeNeighbors entry.element)
            (s.net, ⟨rest⟩)
            ⟨hndr, fun x hx hmem => hcl x hx (List.mem_cons_of_mem _ hmem)⟩
          exact ⟨⟨hfold.1, hfold.2⟩, fun x hx => hx⟩
        · rw [if_neg hclosed] at h
          injection h with h2
          rw [← h2]
          have hdisj : ∀ x ∈ s.closed ++ [entry.element],
              x ∉ (rest.map PQEntry.element) := by
            intro x hx
            rcases List.mem_append.mp hx with h3 | h3
            · exact fun hmem => hcl x h3 (List.mem_cons_of_mem _ hmem)
            · rw [List.mem_singleton.mp h3]
              exact hhead
          have hfold := foldl_invariant
            (relaxStep ctx (s.closed ++ [entry.element]) entry.element current.g)
            (fun p => (p.2.values.map PQEntry.element).Nodup ∧
              ∀ x ∈ s.closed ++ [entry.element], x ∉ p.2.values.map PQEntry.element)
            (fun b a hb => relaxStep_inv ctx (s.closed ++ [entry.element])
              entry.element current.g b a hb.1 hb.2)
            (s.net.getNodeNeighbors entry.element)
            (s.net, ⟨rest⟩)
            ⟨hndr, hdisj⟩
          exact ⟨⟨hfold.1, hfold.2⟩, fun x hx => List.mem_append.mpr (Or.inl hx)⟩

theorem searchReaches_inv (ctx : SearchCtx) (s s2 : SearchState)
    (h : SearchReaches ctx s s2) (hinv : SearchInv s) :
    SearchInv s2 ∧ ∀ x ∈ s.closed, x ∈ s2.closed := by
  induction h with
  | refl => exact ⟨hinv, fun x hx => hx⟩
  | tail hreach hstep ih =>
    obtain ⟨hi, hm⟩ := ih
    obtain ⟨hi2, hm2⟩ := searchStep_inv _ _ _ hstep hi
    exact ⟨hi2, fun x hx => hm2 x (hm x hx)⟩

/-- Claim C7: throughout every search run, no node returns from CLOSED to
OPEN: at any state `s` reached during the run, once a node id is in the
closed set it remains closed at every later state `s2` and is never
present in the priority queue again. -/
theorem C7_closed_never_reopened (net : RoadNetwork) (a b c d : ℝ)
    (ctx : SearchCtx) (s0 s s2 : SearchState) (x : Nat)
    (hinit : findPathInit net a b c d = some (ctx, s0))
    (h1 : SearchReaches ctx s0 s) (h2 : SearchReaches ctx s s2)
    (hx : x ∈ s.closed) :
    x ∈ s2.closed ∧ x ∉ s2.openQ.values.map PQEntry.element := by
  have hs0 : SearchInv s0 := by
    simp only [findPathInit] at hinit
    split at hinit
    · injection hinit with h3
      injection h3 with hctx hs0
      rw [← hs0]
      constructor
      · simp [PriorityQueue.enqueue, sortStable, insertStable]
      · simp
    · exact Option.noConfusion hinit
  have hs : SearchInv s := (searchReaches_inv ctx s0 s h1 hs0).1
  obtain ⟨hs2, hmono⟩ := searchReaches_inv ctx s s2 h2 hs
  exact ⟨hmono x hx, hs2.2 x (hmono x hx)⟩

theorem pqNet_resetNodes : pqNet.resetNodes = pqNet := rfl

theorem pqInit_eval : findPathInit pqNet 0 0 0.3 0 = some (pqCtx, pqS0) := by
  simp only [findPathInit, pqNet_resetNodes, pqNet_resolve_start, pqNet_resolve_end]
  rfl

theorem pqStep1 : searchStep pqCtx pqS0 = StepRes.next pqS1 := rfl

/-- Claim C7, witness: on the two-node network run, after the first
iteration node 1 is closed and (being closed) is absent from the OPEN
queue, by the claim theorem applied along the concrete reachable states. -/
theorem C7_closed_never_reopened_witness :
    findPathInit pqNet 0 0 0.3 0 = some (pqCtx, pqS0) ∧
    searchStep pqCtx pqS0 = StepRes.next pqS1 ∧
    (1 ∈ pqS1.closed ∧ 1 ∉ pqS1.openQ.values.map PQEntry.element) :=
  ⟨pqInit_eval, pqStep1,
    C7_closed_never_reopened pqNet 0 0 0.3 0 pqCtx pqS0 pqS1 pqS1 1 pqInit_eval
      (SearchReaches.tail (SearchReaches.refl _) pqStep1) (SearchReaches.refl _)
      (by simp [pqS1])⟩

/-! ## Claim C5: unresolvable endpoints versus "no path found" -/

/-- Claim C5 (amended): when the start or end coordinate resolves to no
graph node, `findPath` returns immediately with `null` and an untouched
(reset-only) network — no partial search happens.  This `null` is the
same value the search returns when the queue empties without reaching
the goal; the code signals no distinct `InvalidQueryError`. -/
theorem C5_amended_unresolvable_returns_null (net : RoadNetwork) (a b c d : ℝ)
    (h : net.resetNodes.findNearestNode a b = none ∨
         net.resetNodes.findNearestNode c d = none) :
    findPath net a b c d = (none, net.resetNodes) := by
  unfold findPath
  have hinit : findPathInit net a b c d = none := by
    simp only [findPathInit]
    split
    · rename_i startNode endNode hs he
      rcases h with h | h
      · rw [h] at hs
        exact Option.noConfusion hs
      · rw [h] at he
        exact Option.noConfusion he
    · rfl
  rw [hinit]

/-- Claim C5 (amended), witness: querying `pqNet` from `(1,1)` (nothing
within the candidate radius) returns `null` with the network merely
reset. -/
theorem C5_amended_witness :
    (pqNet.resetNodes.findNearestNode 1 1 = none ∨
     pqNet.resetNodes.findNearestNode 1 1 = none) ∧
    findPath pqNet 1 1 1 1 = (none, pqNet.resetNodes) :=
  ⟨Or.inl (by rw [pqNet_resetNodes]; exact pqNet_resolve_far),
   C5_amended_unresolvable_returns_null pqNet 1 1 1 1
     (Or.inl (by rw [pqNet_resetNodes]; exact pqNet_resolve_far))⟩

/-- Claim C5, counterexample: the claim requires a distinct
`InvalidQueryError` outcome for unresolvable endpoints.  In the code both
the unresolvable-endpoint query `(1,1)→(1,1)` (nothing within radius) and
the exhausted-search query `(0,0)→(0.3,0)` (both endpoints resolve, goal
unreachable, queue empties) return the *same* value `null`: the two
outcomes are indistinguishable in the result. -/
theorem C5_counterexample_null_conflation :
    pqNet.resetNodes.findNearestNode 1 1 = none ∧
    pqNet.resetNodes.findNearestNode 0 0 = some (nodeWith 1 0 0 []) ∧
    pqNet.resetNodes.findNearestNode 0.3 0 = some (nodeWith 2 0.3 0 [(1, edgeQP)]) ∧
    (findPath pqNet 1 1 1 1).1 = none ∧
    (findPath pqNet 0 0 0.3 0).1 = none ∧
    (findPath pqNet 1 1 1 1).1 = (findPath pqNet 0 0 0.3 0).1 := by
  have h1 : pqNet.resetNodes.findNearestNode 1 1 = none := by
    rw [pqNet_resetNodes]
    exact pqNet_resolve_far
  have h4 : (findPath pqNet 1 1 1 1).1 = none := by
    rw [C5_amended_unresolvable_returns_null pqNet 1 1 1 1 (Or.inl h1)]
  have h5 : (findPath pqNet 0 0 0.3 0).1 = none := by
    unfold findPath
    rw [pqInit_eval]
    rfl
  refine ⟨h1, by rw [pqNet_resetNodes]; exact pqNet_resolve_start,
    by rw [pqNet_resetNodes]; exact pqNet_resolve_end, h4, h5, by rw [h4, h5]⟩

/-! ## Claim C10: start and end resolving to the same node -/

/-- Inversion without well-keyedness: a node returned by
`findNearestNode` is stored in the node map under some key. -/
theorem findNearestNode_from_nodes (net : RoadNetwork) (lat lng : ℝ) (n : RoadNode)
    (h : net.findNearestNode lat lng = some n) : ∃ k, alGet net.nodes k = some n := by
  simp only [RoadNetwork.findNearestNode] at h
  split_ifs at h
  split at h
  · exact Option.noConfusion h
  · split_ifs at h
    split at h
    · rename_i best hbest
      injection h with h2
      obtain ⟨k, hk⟩ := nearestFold_from_nodes _ _ _ _ best.1 best.2 hbest
      exact ⟨k, by rw [← h2]; exact hk⟩
    · exact Option.noConfusion h

/-- Every node stored in a reset network carries the default scratch
state. -/
theorem resetNodes_scratch (net : RoadNetwork) (k : Nat) (v : RoadNode)
    (h : alGet net.resetNodes.nodes k = some v) :
    v.g = ⊤ ∧ v.h = 0 ∧ v.f = ⊤ ∧ v.parent = none := by
  have hmem := alGet_mem _ _ _ h
  simp only [RoadNetwork.resetNodes, List.mem_map] at hmem
  obtain ⟨kv0, _, heq⟩ := hmem
  have hv : v = kv0.2.reset := (congrArg Prod.snd heq).symm
  rw [hv]
  exact ⟨rfl, rfl, rfl, rfl⟩

/-- Claim C10: when start and end coordinates resolve to the same graph
node, `findPath` succeeds at its first iteration and returns that single
node as the whole path, with no segments, zero totals, and exactly one
node explored. -/
theorem C10_same_node_trivial_path (net : RoadNetwork) (a b c d : ℝ) (n : RoadNode)
    (hs : net.resetNodes.findNearestNode a b = some n)
    (he : net.resetNodes.findNearestNode c d = some n) :
    (findPath net a b c d).1 = some
      { path :=
          { nodes := [trivialNode n]
            segments := []
            totalDistance := 0
            totalTime := 0 }
        nodesExplored := 1
        endNode := trivialNode n } := by
  obtain ⟨k, hk⟩ := findNearestNode_from_nodes _ _ _ _ hs
  obtain ⟨_, _, _, hparent⟩ := resetNodes_scratch net k n hk
  have hh0 : heuristic n n = 0 := calculateDistance_self n.lat n.lng
  simp only [findPath, findPathInit, hs, he, hh0]
  simp only [searchLoop, searchStep, PriorityQueue.enqueue, sortStable, insertStable,
    List.nil_append, alGet_set_self]
  simp only [if_true, reconstructPath, reconstructGo, trivialNode, hparent, zero_add]

theorem oneNodeNet_resetNodes : oneNodeNet.resetNodes = oneNodeNet := rfl

/-- Claim C10, witness: on the one-node network, querying the same
coordinates for start and end yields the trivial one-node result with
`nodesExplored = 1`. -/
theorem C10_same_node_trivial_path_witness :
    oneNodeNet.resetNodes.findNearestNode 0 0 = some (nodeWith 1 0 0 []) ∧
    (findPath oneNodeNet 0 0 0 0).1 = some
      { path :=
          { nodes := [trivialNode (nodeWith 1 0 0 [])]
            segments := []
            totalDistance := 0
            totalTime := 0 }
        nodesExplored := 1
        endNode := trivialNode (nodeWith 1 0 0 []) } := by
  have hs : oneNodeNet.resetNodes.findNearestNode 0 0 = some (nodeWith 1 0 0 []) := by
    rw [oneNodeNet_resetNodes]
    exact oneNodeNet_resolve
  exact ⟨hs, C10_same_node_trivial_path oneNodeNet 0 0 0 0 _ hs hs⟩

/-! ## Claim C3: the `findNearestNode` contract -/

/-- A candidate index delivered by the spatial lookup indexes into the
point array. -/
theorem kdWithin_mem_range (pts : List SpatialPoint) (qx qy r : ℝ) (i : Nat)
    (h : i ∈ kdWithin pts qx qy r) : i < pts.length := by
  simp only [kdWithin] at h
  exact List.mem_range.mp (List.mem_filter.mp h).1

/-- A scan step starting from a `some` accumulator stays `some`. -/
theorem nearestScan_some (net : RoadNetwork) (lat lng : ℝ)
    (acc : Option (RoadNode × ℝ)) (i : Nat) (pn : RoadNode) (pd : ℝ)
    (hacc : acc = some (pn, pd)) :
    ∃ m dm, nearestScan net lat lng acc i = some (m, dm) := by
  subst hacc
  simp only [nearestScan]
  split
  · exact ⟨pn, pd, rfl⟩
  · rename_i loc hloc
    split
    · exact ⟨pn, pd, rfl⟩
    · rename_i node hnode
      split_ifs
      · exact ⟨node, _, rfl⟩
      · exact ⟨pn, pd, rfl⟩

/-- A scan step over a resolvable candidate index always yields `some`. -/
theorem nearestScan_some_of_res (net : RoadNetwork) (lat lng : ℝ)
    (acc : Option (RoadNode × ℝ)) (i : Nat) (loc node : RoadNode)
    (hloc : net.nodeLocations.get? i = some loc)
    (hnode : alGet net.nodes loc.id = some node) :
    ∃ m dm, nearestScan net lat lng acc i = some (m, dm) := by
  cases acc with
  | none =>
    exact ⟨node, calculateDistance lat lng node.lat node.lng,
      by simp only [nearestScan, hloc, hnode]⟩
  | some best =>
    obtain ⟨pn, pd⟩ := best
    simp only [nearestScan, hloc, hnode]
    split_ifs
    · exact ⟨node, _, rfl⟩
    · exact ⟨pn, pd, rfl⟩

/-- The distance held by a scan step's result never exceeds the distance
held by its accumulator. -/
theorem nearestScan_le_prev (net : RoadNetwork) (lat lng : ℝ)
    (acc : Option (RoadNode × ℝ)) (i : Nat) (m pn : RoadNode) (dm pd : ℝ)
    (hacc : acc = some (pn, pd))
    (h : nearestScan net lat lng acc i = some (m, dm)) : dm ≤ pd := by
  subst hacc
  simp only [nearestScan] at h
  split at h
  · injection h with h2
    injection h2 with ha hb
    exact le_of_eq hb.symm
  · rename_i loc hloc
    split at h
    · injection h with h2
      injection h2 with ha hb
      exact le_of_eq hb.symm
    · rename_i node hnode
      split_ifs at h with hlt
      · injection h with h2
        injection h2 with ha hb
        rw [← hb]
        exact le_of_lt hlt
      · injection h with h2
        injection h2 with ha hb
        exact le_of_eq hb.symm

/-- The distance held by a scan step's result never exceeds the exact
geo-distance of the candidate scanned by that step. -/
theorem nearestScan_le_cand (net : RoadNetwork) (lat lng : ℝ)
    (acc : Option (RoadNode × ℝ)) (i : Nat) (loc node m : RoadNode) (dm : ℝ)
    (hloc : net.nodeLocations.get? i = some loc)
    (hnode : alGet net.nodes loc.id = some node)
    (h : nearestScan net lat lng acc i = some (m, dm)) :
    dm ≤ calculateDistance lat lng node.lat node.lng := by
  cases acc with
  | none =>
    simp only [nearestScan, hloc, hnode] at h
    injection h with h2
    injection h2 with ha hb
    exact le_of_eq hb.symm
  | some best =>
    obtain ⟨pn, pd⟩ := best
    simp only [nearestScan, hloc, hnode] at h
    split_ifs at h with hlt
    · injection h with h2
      injection h2 with ha hb
      exact le_of_eq hb.symm
    · injection h with h2
      injection h2 with ha hb
      rw [← hb]
      exact le_of_not_lt hlt

/-- Full specification of the candidate fold: the delivered node is one
of the resolvable candidates, carried at its own exact geo-distance, and
that distance is minimal among all resolvable candidates (and never
exceeds the distance the accumulator started with). -/
theorem nearestFold_min (net : RoadNetwork) (lat lng : ℝ) :
    ∀ (idxs : List Nat) (acc : Option (RoadNode × ℝ)) (n : RoadNode) (d : ℝ),
    idxs.foldl (nearestScan net lat lng) acc = some (n, d) →
    (acc = some (n, d) ∨
      ((∃ i ∈ idxs, ∃ loc, net.nodeLocations.get? i = some loc ∧
          alGet net.nodes loc.id = some n) ∧
        d = calculateDistance lat lng n.lat n.lng)) ∧
    (∀ pn pd, acc = some (pn, pd) → d ≤ pd) ∧
    (∀ i ∈ idxs, ∀ loc node, net.nodeLocations.get? i = some loc →
      alGet net.nodes loc.id = some node →
      d ≤ calculateDistance lat lng node.lat node.lng) := by
  intro idxs
  induction idxs with
  | nil =>
    intro acc n d h
    simp only [List.foldl_nil] at h
    refine ⟨Or.inl h, ?_, ?_⟩
    · intro pn pd hacc
      rw [hacc] at h
      injection h with h2
      injection h2 with ha hb
      exact le_of_eq hb.symm
    · intro i hi
      exact absurd hi (List.not_mem_nil i)
  | cons i0 rest ih =>
    intro acc n d h
    rw [List.foldl_cons] at h
    obtain ⟨hprov, hprev, hcand⟩ := ih (nearestScan net lat lng acc i0) n d h
    refine ⟨?_, ?_, ?_⟩
    · rcases hprov with h1 | h1
      · rcases nearestScan_cases net lat lng acc i0 n d h1 with h2 | h2
        · exact Or.inl h2
        · obtain ⟨⟨loc, hloc, hnode⟩, hd⟩ := h2
          exact Or.inr ⟨⟨i0, List.mem_cons_self i0 rest, loc, hloc, hnode⟩, hd⟩
      · obtain ⟨⟨i1, hi1, loc, hloc, hnode⟩, hd⟩ := h1
        exact Or.inr ⟨⟨i1, List.mem_cons_of_mem i0 hi1, loc, hloc, hnode⟩, hd⟩
    · intro pn pd hacc
      obtain ⟨m1, d1, h1⟩ := nearestScan_some net lat lng acc i0 pn pd hacc
      exact le_trans (hprev m1 d1 h1)
        (nearestScan_le_prev net lat lng acc i0 m1 pn d1 pd hacc h1)
    · intro i hi loc node hloc hnode
      rcases List.mem_cons.mp hi with h1 | h1
      · subst h1
        obtain ⟨m1, d1, hsc⟩ := nearestScan_some_of_res net lat lng acc i loc node hloc hnode
        exact le_trans (hprev m1 d1 hsc)
          (nearestScan_le_cand net lat lng acc i loc node m1 d1 hloc hnode hsc)
      · exact hcand i h1 loc node hloc hnode

/-- When the candidate list is nonempty and every candidate resolves, the
fold delivers a node. -/
theorem nearestFold_ne_none (net : RoadNetwork) (lat lng : ℝ) (idxs : List Nat)
    (hne : idxs ≠ [])
    (hres : ∀ i ∈ idxs, ∃ loc, net.nodeLocations.get? i = some loc ∧
      ∃ node, alGet net.nodes loc.id = some node) :
    ∃ m dm, nearestFold net lat lng idxs = some (m, dm) := by
  cases idxs with
  | nil => exact absurd rfl hne
  | cons i0 rest =>
    obtain ⟨loc, hloc, node, hnode⟩ := hres i0 (List.mem_cons_self i0 rest)
    obtain ⟨m0, d0, h0⟩ := nearestScan_some_of_res net lat lng none i0 loc node hloc hnode
    unfold nearestFold
    rw [List.foldl_cons, h0]
    exact foldl_invariant (nearestScan net lat lng)
      (fun acc => ∃ m dm, acc = some (m, dm))
      (fun b a ⟨m, dm, hb⟩ => nearestScan_some net lat lng b a m dm hb)
      rest _ ⟨m0, d0, rfl⟩

/-- Claim C3, counterexample: the ready one-node network `farNet` has its
single node 0.0009° of latitude from the origin — inside the
`searchRadius / 111000` coordinate-degree candidate circle, but farther
than the configured 100 m search radius in exact geo-distance — yet
`findNearestNode 0 0` returns that node: the source never compares the
exact geo-distance against `searchRadius` in meters. -/
theorem C3_counterexample_beyond_radius :
    farNet.searchRadius = 100 ∧
    farNet.findNearestNode 0 0 = some (nodeWith 1 0.0009 0 []) ∧
    100 < calculateDistance 0 0 0.0009 0 := by
  refine ⟨rfl, ?_, ?_⟩
  · have hr : List.range 1 = [0] := rfl
    simp only [RoadNetwork.findNearestNode, farNet, RoadNetwork.buildSpatialIndex,
      kdWithin, nearestFold, nearestScan, alGet, nodeWith, hr, List.map, List.filter,
      List.get?, List.foldl, List.length]
    norm_num [nearestScan, alGet, List.get?, nodeWith]
  · rw [hav_lat0' 0.0009 (by norm_num) (by norm_num)]
    unfold Kd
    nlinarith [Real.pi_gt_d6]

/-- Claim C3, amended: under the ready/idle/indexed hypotheses (and every
candidate of the spatial lookup resolving in the node map, as holds for
every built graph), `findNearestNode` returns `none` exactly when *no
indexed point lies within `searchRadius / 111000` coordinate degrees* of
the query — not within `searchRadius` meters — and otherwise returns a
resolvable candidate of that degree-circle whose exact geo-distance to
the query is minimal among all the circle's candidates (not among all
nodes of the graph, and with no upper bound in meters). -/
theorem C3_amended_candidate_minimum (net : RoadNetwork) (lat lng : ℝ)
    (pts : List SpatialPoint)
    (hready : net.ready = true) (hload : net.loading = false)
    (hidx : net.spatialIndex = some pts)
    (hres : ∀ i ∈ kdWithin pts lng lat (net.searchRadius / 111000),
      ∃ loc, net.nodeLocations.get? i = some loc ∧
        ∃ node, alGet net.nodes loc.id = some node) :
    (net.findNearestNode lat lng = none ↔
      kdWithin pts lng lat (net.searchRadius / 111000) = []) ∧
    (∀ n, net.findNearestNode lat lng = some n →
      (∃ i ∈ kdWithin pts lng lat (net.searchRadius / 111000),
        ∃ loc, net.nodeLocations.get? i = some loc ∧ alGet net.nodes loc.id = some n) ∧
      (∀ i ∈ kdWithin pts lng lat (net.searchRadius / 111000),
        ∀ loc node, net.nodeLocations.get? i = some loc →
          alGet net.nodes loc.id = some node →
          calculateDistance lat lng n.lat n.lng ≤
            calculateDistance lat lng node.lat node.lng)) := by
  constructor
  · constructor
    · intro hnone
      by_contra hne
      obtain ⟨m, dm, hfold⟩ :=
        nearestFold_ne_none net lat lng (kdWithin pts lng lat (net.searchRadius / 111000))
          hne hres
      have hsome : net.findNearestNode lat lng = some m := by
        simp [RoadNetwork.findNearestNode, hready, hload, hidx, hfold,
          List.length_eq_zero, hne]
      rw [hsome] at hnone
      exact Option.noConfusion hnone
    · intro hW
      simp [RoadNetwork.findNearestNode, hready, hload, hidx, hW]
  · intro n hn
    simp only [RoadNetwork.findNearestNode, hready, hload, hidx, Bool.not_true,
      Bool.false_eq_true, if_false] at hn
    split_ifs at hn
    split at hn
    case _ =>
      rename_i best hbest
      injection hn with hn2
      obtain ⟨bn, bd⟩ := best
      obtain ⟨hprov, _, hcand⟩ :=
        nearestFold_min net lat lng (kdWithin pts lng lat (net.searchRadius / 111000))
          none bn bd hbest
      rcases hprov with h1 | h1
      · exact Option.noConfusion h1
      · obtain ⟨⟨i1, hi1, loc, hloc, hnode⟩, hd⟩ := h1
        have hbn : bn = n := hn2
        subst hbn
        refine ⟨⟨i1, hi1, loc, hloc, hnode⟩, ?_⟩
        intro i hi loc2 node2 hloc2 hnode2
        rw [← hd]
        exact hcand i hi loc2 node2 hloc2 hnode2
    case _ => exact Option.noConfusion hn

/-- Claim C3, amended, witness: on `farNet` at the origin query the
characterization holds with its hypotheses discharged concretely. -/
theorem C3_amended_candidate_minimum_witness :
    farNet.ready = true ∧ farNet.loading = false ∧
    farNet.spatialIndex = some [{ x := 0, y := 0.0009, id := 1 }] ∧
    ((farNet.findNearestNode 0 0 = none ↔
        kdWithin [{ x := 0, y := 0.0009, id := 1 }] 0 0 (farNet.searchRadius / 111000) = []) ∧
      (∀ n, farNet.findNearestNode 0 0 = some n →
        (∃ i ∈ kdWithin [{ x := 0, y := 0.0009, id := 1 }] 0 0 (farNet.searchRadius / 111000),
          ∃ loc, farNet.nodeLocations.get? i = some loc ∧
            alGet farNet.nodes loc.id = some n) ∧
        (∀ i ∈ kdWithin [{ x := 0, y := 0.0009, id := 1 }] 0 0 (farNet.searchRadius / 111000),
          ∀ loc node, farNet.nodeLocations.get? i = some loc →
            alGet farNet.nodes loc.id = some node →
            calculateDistance 0 0 n.lat n.lng ≤
              calculateDistance 0 0 node.lat node.lng))) := by
  refine ⟨rfl, rfl, rfl, C3_amended_candidate_minimum farNet 0 0 _ rfl rfl rfl ?_⟩
  intro i hi
  have hlt : i < 1 := kdWithin_mem_range _ _ _ _ _ hi
  have hi0 : i = 0 := Nat.lt_one_iff.mp hlt
  subst hi0
  exact ⟨nodeWith 1 0.0009 0 [], rfl, nodeWith 1 0.0009 0 [], rfl⟩

/-! ## Claim C4: relaxation of a node already in OPEN

The concrete run on `staleNet` below closes nodes 1, 2, 3 in order.  The
second iteration enqueues node 4 with priority `f = Kd * 0.04` (route
1→2→4); the third improves node 4's `g` and `f` to `Kd * 0.03` (route
1→3→4) *while node 4 is already OPEN* — but `enqueue` is skipped because
of the `contains` guard, so the queue entry keeps the stale priority
`Kd * 0.04`, and that is the priority at node 4's next extraction. -/

theorem staleNet_resetNodes : staleNet.resetNodes = staleNet := rfl

theorem staleNet_resolve_start :
    staleNet.findNearestNode 0.03 0 = some (nodeWith 1 0.03 0 [(2, eSA), (3, eSC)]) := by
  have hr : List.range 5 = [0, 1, 2, 3, 4] := rfl
  simp only [RoadNetwork.findNearestNode, staleNet, RoadNetwork.buildSpatialIndex,
    kdWithin, nearestFold, nearestScan, alGet, nodeWith, hr, List.map, List.filter,
    List.get?, List.foldl, List.length]
  norm_num [nearestScan, alGet, List.get?, nodeWith]

theorem staleNet_resolve_end :
    staleNet.findNearestNode 0 0 = some (nodeWith 5 0 0 []) := by
  have hr : List.range 5 = [0, 1, 2, 3, 4] := rfl
  simp only [RoadNetwork.findNearestNode, staleNet, RoadNetwork.buildSpatialIndex,
    kdWithin, nearestFold, nearestScan, alGet, nodeWith, hr, List.map, List.filter,
    List.get?, List.foldl, List.length]
  norm_num [nearestScan, alGet, List.get?, nodeWith]

theorem staleInit : findPathInit staleNet 0.03 0 0 0 = some (staleCtx, staleS0) := by
  have hh : calculateDistance 0.03 0 0 0 = Kd * 0.03 :=
    hav_lat0 0.03 (by norm_num) (by norm_num)
  simp only [findPathInit, staleNet_resetNodes, staleNet_resolve_start,
    staleNet_resolve_end, heuristic, nodeWith, hh]
  rfl

theorem staleStep1 : searchStep staleCtx staleS0 = StepRes.next staleS1 := by
  have h2 : calculateDistance (1 / 200 : ℝ) 0 0 0 = Kd * (1 / 200) :=
    hav_lat0 (1 / 200) (by norm_num) (by norm_num)
  have h3 : calculateDistance (1 / 50 : ℝ) 0 0 0 = Kd * (1 / 50) :=
    hav_lat0 (1 / 50) (by norm_num) (by norm_num)
  norm_num [searchStep, staleS0, staleCtx, staleS1, RoadNetwork.getNodeNeighbors,
    alGet, alSet, nodeWith, eSA, eSC, relaxStep, PriorityQueue.contains,
    PriorityQueue.enqueue, sortStable, insertStable, h2, h3, KT,
    KdT_lt_top, KdT_add, KdT_lt_iff]

theorem staleStep2 : searchStep staleCtx staleS1 = StepRes.next staleS2 := by
  have h4 : calculateDistance (1 / 100 : ℝ) 0 0 0 = Kd * (1 / 100) :=
    hav_lat0 (1 / 100) (by norm_num) (by norm_num)
  norm_num [searchStep, staleS1, staleCtx, staleS2, RoadNetwork.getNodeNeighbors,
    alGet, alSet, nodeWith, eAB, relaxStep, PriorityQueue.contains,
    PriorityQueue.enqueue, sortStable, insertStable, h4, KT,
    KdT_lt_top, KdT_add, KdT_lt_iff]

theorem staleStep3 : searchStep staleCtx staleS2 = StepRes.next staleS3 := by
  have h4 : calculateDistance (1 / 100 : ℝ) 0 0 0 = Kd * (1 / 100) :=
    hav_lat0 (1 / 100) (by norm_num) (by norm_num)
  norm_num [searchStep, staleS2, staleCtx, staleS3, RoadNetwork.getNodeNeighbors,
    alGet, alSet, nodeWith, eCB, relaxStep, PriorityQueue.contains,
    PriorityQueue.enqueue, sortStable, insertStable, h4, KT,
    KdT_lt_top, KdT_add, KdT_lt_iff]

/-- Claim C4, counterexample: in the `staleNet` run, after the second
iteration node 4 is OPEN with stored priority `Kd * 0.04`; the third
iteration improves node 4's `f` to `Kd * 0.03` while it is OPEN, yet the
queue still holds node 4 at the stale priority `Kd * 0.04`, and that —
not the improved `f` — is the priority of its next extraction. -/
theorem C4_counterexample_stale_priority :
    findPathInit staleNet 0.03 0 0 0 = some (staleCtx, staleS0) ∧
    searchStep staleCtx staleS0 = StepRes.next staleS1 ∧
    searchStep staleCtx staleS1 = StepRes.next staleS2 ∧
    staleS2.openQ.contains 4 = true ∧
    searchStep staleCtx staleS2 = StepRes.next staleS3 ∧
    Option.map (fun n => n.f) (alGet staleS3.net.nodes 4) = some (KT 0.03) ∧
    staleS3.openQ.dequeueEntry = some ⟨4, KT 0.04⟩ ∧
    KT 0.04 ≠ KT 0.03 := by
  refine ⟨staleInit, staleStep1, staleStep2, rfl, staleStep3, rfl, rfl, ?_⟩
  intro h
  simp only [KT, WithTop.coe_eq_coe] at h
  have h2 := mul_left_cancel₀ (ne_of_gt Kd_pos) h
  norm_num at h2

/-- Claim C4, amended: when edge relaxation improves a neighbor that is
already in the OPEN queue, the queue — including the stored priority of
that neighbor's entry — is left completely unchanged: the improved `f` is
written only to the node object and does *not* become the entry's
priority (`enqueue` is skipped by the `contains` guard), so the next
extraction of that node still uses the priority it was first enqueued
with. -/
theorem C4_amended_stale_queue_priority (ctx : SearchCtx) (closed : List Nat)
    (cid : Nat) (cg : WithTop ℝ) (acc : RoadNetwork × PriorityQueue Nat (WithTop ℝ))
    (nb : Nat × RoadEdge) (h : acc.2.contains nb.1 = true) :
    (relaxStep ctx closed cid cg acc nb).2 = acc.2 := by
  unfold relaxStep
  by_cases hc : nb.1 ∈ closed
  · rw [if_pos hc]
  · rw [if_neg hc]
    cases hget : alGet acc.1.nodes nb.1 with
    | none => rfl
    | some neighbor =>
      dsimp only
      by_cases hlt : cg + (nb.2.distance : WithTop ℝ) < neighbor.g
      · rw [if_pos hlt]
        simp only [h, if_true]
      · rw [if_neg hlt]

/-- Claim C4, amended, witness: the third-iteration relaxation of node 4
(already OPEN at priority `Kd * 0.04`) leaves the queue unchanged. -/
theorem C4_amended_stale_queue_priority_witness :
    (⟨[⟨4, KT 0.04⟩]⟩ : PriorityQueue Nat (WithTop ℝ)).contains 4 = true ∧
    (relaxStep staleCtx [1, 2, 3] 3 (KT 0.01)
        (staleS2.net, (⟨[⟨4, KT 0.04⟩]⟩ : PriorityQueue Nat (WithTop ℝ))) (4, eCB)).2 =
      (⟨[⟨4, KT 0.04⟩]⟩ : PriorityQueue Nat (WithTop ℝ)) :=
  ⟨rfl, C4_amended_stale_queue_priority staleCtx [1, 2, 3] 3 (KT 0.01)
    (staleS2.net, ⟨[⟨4, KT 0.04⟩]⟩) (4, eCB) rfl⟩

end AStarApp
